import Mathlib

/-
  Verification development for the LinkedIn Ads crawler
  (linkedin_ads_scraper).  The definitions below are a shallow
  embedding of the Python source:

  * src/src/crawler.py   (AsyncLinkedInCrawler: discovery loop,
                          extractor, diff-upsert, chunked processing)
  * src/src/utils.py     (clean_text, format_date, URL helpers)
  * src/src/models.py    (LinkedInAd persisted shape)
  * src/src/config.py    (RETRY_COUNT, CHUNK_SIZE, ...)

  Python dictionaries are modelled as association lists
  (`List (String × Value)`), Python values by the inductive `Value`,
  database rows by `StoredAd` and the table by `DB`.  Browser and
  network effects are modelled by explicit environments: a function
  from iteration / attempt number to the observable outcome of that
  iteration.  Exceptions become `Option` / explicit error outcomes.
-/

namespace LAS

/-- The domain of Python values that flow through the crawler's
ad dictionaries and database columns: `None`, strings, integers,
dates (from `datetime.date`) and the country-impressions list of
`{country, percentage}` pairs (crawler.py lines 434-441). -/
inductive Value where
  | none
  | str (s : String)
  | int (n : Int)
  | date (y m d : Nat)
  | impressions (l : List (String × String))
deriving DecidableEq, Repr

/-- Python truthiness on the `Value` domain: `None`, `""`, `0` and
`[]` are falsy, everything else truthy. -/
def truthy : Value → Bool
  | Value.none => false
  | Value.str s => !(s = "")
  | Value.int n => !(n = 0)
  | Value.date _ _ _ => true
  | Value.impressions l => !(l = [])

/-- A Python dict such as `ad_data` / `transformed_data`:
an association list keyed by field name. -/
abbrev AdData := List (String × Value)

/-- `d.get(k)` with the convention that a missing key reads as `None`
(matching `dict.get`). -/
def lookupData (d : AdData) (k : String) : Value :=
  (List.lookup k d).getD Value.none

/-- `d[k] = v` on a dict: overwrite in place if the key exists
(keeping its position, as CPython dicts do), else append. -/
def setPair : List (String × Value) → String → Value → List (String × Value)
  | [], k, v => [(k, v)]
  | (g, w) :: rest, k, v =>
      if g = k then (k, v) :: rest else (g, w) :: setPair rest k v

/-- Accumulate the decimal value of a digit list. -/
def digitsToNatAux : List Char → Nat → Nat
  | [], acc => acc
  | c :: cs, acc => digitsToNatAux cs (acc * 10 + (c.toNat - '0'.toNat))

/-- Parse a non-empty all-digit character list as a natural number. -/
def charsToNat? (l : List Char) : Option Nat :=
  if l ≠ [] ∧ l.all Char.isDigit then some (digitsToNatAux l 0) else Option.none

/-- Digits-only string-to-Nat parse (the behaviour of `int(s)` /
`str.isdigit` on the ASCII-digit identifiers this code base handles). -/
def strToNat? (s : String) : Option Nat :=
  charsToNat? s.data

/-- Split a character list at every occurrence of `sep`, keeping empty
segments, like Python's `str.split(sep)` for a one-character `sep`. -/
def splitCharAux (sep : Char) : List Char → List Char → List (List Char)
  | [], acc => [acc.reverse]
  | c :: cs, acc =>
      if c = sep then acc.reverse :: splitCharAux sep cs []
      else splitCharAux sep cs (c :: acc)

/-- `s.split(sep)` for a one-character separator. -/
def splitChar (sep : Char) (s : String) : List String :=
  (splitCharAux sep s.data []).map String.mk

/-- `s.strip()`: drop leading and trailing whitespace. -/
def trimStr (s : String) : String :=
  String.mk
    (((s.data.dropWhile Char.isWhitespace).reverse.dropWhile
      Char.isWhitespace).reverse)

/-- Python `int(s)` restricted to the decimal digit strings that reach
it in this code base (company ids and ad ids extracted by `\d+`
regexes); any other string raises `ValueError`, modelled as `none`. -/
def pyInt? (s : String) : Option Int :=
  (strToNat? s).map Int.ofNat

/-- strptime with format `%Y/%m/%d` (crawler.py line 622): three
`/`-separated numeric components with a basic range check; failure
is `ValueError`, modelled as `none`. -/
def parseYmd (s : String) : Option (Nat × Nat × Nat) :=
  match splitChar '/' s with
  | [y, m, d] =>
    match strToNat? y, strToNat? m, strToNat? d with
    | some yn, some mn, some dn =>
        if 1 ≤ mn ∧ mn ≤ 12 ∧ 1 ≤ dn ∧ dn ≤ 31 then some (yn, mn, dn)
        else Option.none
    | _, _, _ => Option.none
  | _ => Option.none

/-- Month abbreviations accepted by strptime's `%b`. -/
def monthNum (s : String) : Option Nat :=
  (["Jan", "Feb", "Mar", "Apr", "May", "Jun",
    "Jul", "Aug", "Sep", "Oct", "Nov", "Dec"].indexOf? s).map (· + 1)

/-- Helper for `natDigits`: peel decimal digits with explicit fuel. -/
def natDigitsGo : Nat → Nat → List Char → List Char
  | 0, _, acc => acc
  | fuel + 1, m, acc =>
    let d := Char.ofNat (m % 10 + '0'.toNat)
    if m < 10 then d :: acc else natDigitsGo fuel (m / 10) (d :: acc)

/-- Decimal digit characters of a natural number. -/
def natDigits (n : Nat) : List Char :=
  natDigitsGo (n + 1) n []

/-- Decimal rendering of a natural number. -/
def natToStr (n : Nat) : String :=
  String.mk (natDigits n)

/-- Left-pad a number to two digits, as `%m` / `%d` do. -/
def pad2 (n : Nat) : String :=
  if n < 10 then String.mk ('0' :: natDigits n) else natToStr n

/-- utils.format_date: parse `"Mar 1, 2024"` (`%b %d, %Y`) and
re-format as `"2024/03/01"`; any failure yields `None`. -/
def formatDate (s : String) : Option String :=
  match splitChar ' ' (trimStr s) with
  | [mon, dayc, year] =>
    match dayc.data.getLast? with
    | some ',' =>
      match monthNum mon, charsToNat? dayc.data.dropLast, strToNat? year with
      | some m, some d, some y =>
          if 1 ≤ d ∧ d ≤ 31 then
            some (String.mk (natDigits y ++ '/' :: (pad2 m).data ++
              '/' :: (pad2 d).data))
          else Option.none
      | _, _, _ => Option.none
    | _ => Option.none
  | _ => Option.none

/-- Helper for utils.clean_text: drop `<...>` tag spans, mirroring the
regex `<[^>]+>` (a `<` is removed together with its span only when at
least one non-`>` character is followed by a closing `>`). The fuel is
the string length, which bounds the recursion. -/
def stripTagsAux : Nat → List Char → List Char
  | 0, l => l
  | _ + 1, [] => []
  | fuel + 1, c :: rest =>
    if c = '<' then
      let pre := rest.takeWhile (fun x => !(x = '>'))
      let post := rest.drop pre.length
      if pre.length > 0 ∧ post.head? = some '>' then
        stripTagsAux fuel post.tail
      else c :: stripTagsAux fuel rest
    else c :: stripTagsAux fuel rest

/-- Split a character list into maximal whitespace-free words. -/
def wordsAux : Nat → List Char → List String
  | 0, _ => []
  | _ + 1, [] => []
  | fuel + 1, l =>
    let l' := l.dropWhile Char.isWhitespace
    match l' with
    | [] => []
    | _ :: _ =>
      let w := l'.takeWhile (fun c => !(c.isWhitespace))
      String.mk w :: wordsAux fuel (l'.drop w.length)

/-- Join words with single spaces. -/
def joinSpace : List String → String
  | [] => ""
  | [w] => w
  | w :: rest => String.mk (w.data ++ ' ' :: (joinSpace rest).data)

/-- utils.clean_text: strip HTML tags, collapse all whitespace runs to
single spaces and trim (`re.sub` pipeline in utils.py lines 41-47). -/
def cleanText (s : String) : String :=
  let noTags := stripTagsAux (s.data.length + 1) s.data
  joinSpace (wordsAux (noTags.length + 1) noTags)

/-- `link.split('?')[0]` — the query-string-stripping normalization
applied to every discovered detail URL (crawler.py line 133). -/
def stripQuery (s : String) : String :=
  match splitChar '?' s with
  | [] => s
  | h :: _ => h

/-- The observable result of the regular-expression searches that
`_extract_page_content` (crawler.py lines 402-494) performs over one
ad page's HTML.  Each `re.search` over the raw page becomes one field
holding the matched group(s); `dateRange` combines the
`about-ad__availability-duration` match with the inner
`Ran from A (to B)?` match (a `some` here means both matched, the
second component is group 2 when present); `hasPersonalLink` is the
substring test `'linkedin.com/in/' in html_content`. -/
structure PageContent where
  adIdMatch : Option String
  dateRange : Option (String × Option String)
  impressionsMatch : Option String
  countryImpressions : List (String × String)
  logoMatch : Option String
  advertiserMatch : Option String
  creativeMatch : Option String
  hasPersonalLink : Bool
  redirectMatch : Option String
  headlineMatch : Option String
  descriptionMatch : Option String
  imgMatch : Option String
  companyMatch : Option String

/-- Wrap `format_date`'s optional result the way the assignment
`ad_data[...] = format_date(...)` does: a parse failure stores `None`
under the key. -/
def optStr : Option String → Value
  | some s => Value.str s
  | Option.none => Value.none

/-- First component of `full_url.split('?')` (crawler.py line 464). -/
def headOr (parts : List String) (dflt : String) : String :=
  match parts with
  | [] => dflt
  | h :: _ => h

/-- Helper for `replaceAmp`: left-to-right non-overlapping replacement
of the character sequence `&amp;` by `&`, with length fuel. -/
def replaceAmpAux : Nat → List Char → List Char
  | 0, l => l
  | _ + 1, [] => []
  | fuel + 1, '&' :: 'a' :: 'm' :: 'p' :: ';' :: rest =>
      '&' :: replaceAmpAux fuel rest
  | fuel + 1, c :: cs => c :: replaceAmpAux fuel cs

/-- `s.replace('&amp;', '&')` (crawler.py line 483). -/
def replaceAmp (s : String) : String :=
  String.mk (replaceAmpAux (s.data.length + 1) s.data)

/-- AsyncLinkedInCrawler._extract_page_content (crawler.py 402-498):
assemble `ad_data` field by field.  Returns `none` when the canonical
ad id is absent (hard skip, line 415) and when any uncaught step of
the `try` block raises — in particular `int(self.company_id)` on a
non-numeric crawl input (line 492), which the surrounding `except`
turns into a `None` return. -/
def extractPageContent (companyId : String) (p : PageContent) : Option AdData :=
  match p.adIdMatch with
  | Option.none => Option.none
  | some adId =>
    let d : AdData := [("ad_id", Value.str adId)]
    let d := match p.dateRange with
      | some (ds, de) =>
        let d := setPair d "campaign_start_date" (optStr (formatDate ds))
        setPair d "campaign_end_date"
          (match de with
           | some e => optStr (formatDate e)
           | Option.none => Value.none)
      | Option.none => d
    let d := match p.impressionsMatch with
      | some s => setPair d "campaign_impressions_range" (Value.str s)
      | Option.none => d
    let d := setPair d "campaign_impressions_by_country"
      (Value.impressions p.countryImpressions)
    let d := match p.logoMatch with
      | some s => setPair d "advertiser_logo" (Value.str s)
      | Option.none => d
    let d := match p.advertiserMatch with
      | some s => setPair d "advertiser_name" (Value.str s)
      | Option.none => d
    let d := match p.creativeMatch with
      | some s => setPair d "creative_type" (Value.str s)
      | Option.none => d
    let d := setPair d "ad_type"
      (Value.str (if p.hasPersonalLink then "personal_ad" else "company_ad"))
    let d := match p.redirectMatch with
      | some full =>
        let parts := splitChar '?' full
        let d := setPair d "ad_redirect_url" (Value.str (headOr parts full))
        setPair d "utm_parameters"
          (match parts with
           | _ :: u :: _ => Value.str u
           | _ => Value.none)
      | Option.none => d
    let d := match p.headlineMatch with
      | some s => setPair d "headline" (Value.str s)
      | Option.none => d
    let d := setPair d "description"
      (match p.descriptionMatch with
       | some s => Value.str (cleanText s)
       | Option.none => Value.none)
    let d := match p.imgMatch with
      | some s => setPair d "image_url" (Value.str (replaceAmp s))
      | Option.none => d
    let d := match p.companyMatch with
      | some s => setPair d "company_id" (Value.str s)
      | Option.none => d
    match pyInt? companyId with
    | some n => some (setPair d "company_id" (Value.int n))
    | Option.none => Option.none

/-- One persisted `linkedin_ads` row (models.py 12-34): the data
columns as an association list read through `getField` (a column that
was never written reads as SQL NULL, i.e. `Value.none`), plus the
bookkeeping timestamps maintained by the storage layer
(`server_default=func.now()`, `onupdate=func.now()`). -/
structure StoredAd where
  fields : List (String × Value)
  createdAt : Nat
  updatedAt : Nat
deriving DecidableEq, Repr

/-- `getattr(existing_ad, field)` — read one column. -/
def getField (r : StoredAd) (f : String) : Value :=
  (List.lookup f r.fields).getD Value.none

/-- `setattr(existing_ad, field, new_value)` — write one column. -/
def setField (r : StoredAd) (f : String) (v : Value) : StoredAd :=
  { r with fields := setPair r.fields f v }

/-- The `linkedin_ads` table. -/
abbrev DB := List StoredAd

/-- `select(LinkedInAd).where(LinkedInAd.ad_id == ...)` followed by
`.scalars().first()` (crawler.py 560-563). -/
def findAd (db : DB) (adIdv : Value) : Option StoredAd :=
  List.find? (fun r => decide (getField r "ad_id" = adIdv)) db

/-- Commit of an ORM-mutated row: replace the row found by `ad_id`. -/
def replaceFirst : DB → Value → StoredAd → DB
  | [], _, _ => []
  | r :: rest, idv, r' =>
      if getField r "ad_id" = idv then r' :: rest
      else r :: replaceFirst rest idv r'

/-- The direct field mappings of `_transform_ad_data`
(crawler.py 609-614), in source order. -/
def directFields : List String :=
  ["ad_id", "creative_type", "advertiser_name", "advertiser_logo",
   "headline", "description", "promoted_text", "image_url",
   "view_details_link", "campaign_impressions_range",
   "company_id", "ad_type", "ad_redirect_url", "utm_parameters"]

/-- `for field in [...]: if field in data: transformed[field] = data[field]`
(crawler.py 609-616). -/
def directCopy (data : AdData) : AdData :=
  directFields.filterMap (fun f => (List.lookup f data).map (fun v => (f, v)))

/-- One date field of `_transform_ad_data` (crawler.py 619-626):
skipped when `data.get(field)` is falsy; a string is parsed with
strptime `%Y/%m/%d`, storing `None` on `ValueError`; a truthy
non-string raises `TypeError`, which no `except` catches — modelled
as overall failure (`none`). -/
def dateStep (data : AdData) (t : AdData) (df : String) : Option AdData :=
  let v := lookupData data df
  if truthy v then
    match v with
    | Value.str s =>
        some (setPair t df
          (match parseYmd s with
           | some (y, m, d) => Value.date y m d
           | Option.none => Value.none))
    | _ => Option.none
  else some t

/-- The JSON field of `_transform_ad_data` (crawler.py 629-634):
kept as-is when it is already a structured list.  The extractor always
supplies the structured list built at crawler.py line 441; a raw value
of any other shape reaches `json.loads`, which on this value domain
raises — modelled as overall failure. -/
def imprStep (data : AdData) (t : AdData) : Option AdData :=
  match List.lookup "campaign_impressions_by_country" data with
  | Option.none => some t
  | some v =>
    match v with
    | Value.impressions _ => some (setPair t "campaign_impressions_by_country" v)
    | _ => Option.none

/-- `int(x)` as used at crawler.py 637-641: ints pass through, digit
strings convert, everything else (including `None`) is caught by the
`(ValueError, TypeError)` handler and becomes `None`. -/
def pyIntOfValue : Value → Value
  | Value.int n => Value.int n
  | Value.str s =>
      (match pyInt? s with
       | some n => Value.int n
       | Option.none => Value.none)
  | _ => Value.none

/-- `if 'company_id' in transformed: transformed['company_id'] = int(...)`
(crawler.py 636-641). -/
def companyConv (t : AdData) : AdData :=
  if (List.lookup "company_id" t).isSome then
    t.map (fun p => if p.1 = "company_id" then (p.1, pyIntOfValue p.2) else p)
  else t

/-- AsyncLinkedInCrawler._transform_ad_data (crawler.py 604-643);
`none` models an uncaught exception inside the transform. -/
def transformAdData (data : AdData) : Option AdData :=
  match dateStep data (directCopy data) "campaign_start_date" with
  | Option.none => Option.none
  | some t1 =>
    match dateStep data t1 "campaign_end_date" with
    | Option.none => Option.none
    | some t2 =>
      match imprStep data t2 with
      | Option.none => Option.none
      | some t3 => some (companyConv t3)

/-- The per-field comparison of `upsert_ad` (crawler.py 575-586),
dispatching on the type of the *current* column value exactly as the
`isinstance` chain does.  For date and composite columns the code
requires the new value to be truthy (`if new_value and ...`); for the
composite column it compares `json.dumps` serializations, which on
this structured value domain coincide exactly with structural
equality. -/
def fieldUpdateGuard (cur v : Value) : Bool :=
  match cur with
  | Value.date _ _ _ => truthy v && decide (v ≠ cur)
  | Value.impressions _ => truthy v && decide (v ≠ cur)
  | _ => decide (v ≠ cur)

/-- The `for field, new_value in transformed_data.items()` loop of
`upsert_ad` (crawler.py 568-586): skip `ad_id`, apply each differing
field via `setattr`, and record whether any update happened. -/
def applyFields (r : StoredAd) : List (String × Value) → StoredAd × Bool
  | [] => (r, false)
  | (f, v) :: rest =>
    if f = "ad_id" then applyFields r rest
    else if fieldUpdateGuard (getField r f) v then
      ((applyFields (setField r f v) rest).1, true)
    else applyFields r rest

/-- Outcome classification of `upsert_ad` (crawler.py 590-597);
`error` is the exception path of lines 599-602 (rollback + re-raise). -/
inductive UpsertOutcome where
  | new
  | updated
  | existing
  | error
deriving DecidableEq, Repr

/-- Result of one reconciliation: the outcome, the table afterwards,
and how many commits (durable writes) were issued. -/
structure UpsertResult where
  outcome : UpsertOutcome
  db : DB
  commits : Nat
deriving DecidableEq, Repr

/-- AsyncLinkedInCrawler.upsert_ad (crawler.py 549-602).  `fail`
models the storage layer raising at commit time for a given `ad_id`
(the rollback of line 600 leaves the table unchanged); `now` is the
transaction timestamp the storage layer would use for
`created_at` / `updated_at` (`func.now()`, models.py 33-34). -/
def upsertAdWith (fail : Value → Bool) (db : DB) (adData : AdData) (now : Nat) :
    UpsertResult :=
  if truthy (lookupData adData "ad_id") = false then
    ⟨UpsertOutcome.error, db, 0⟩
  else
    match transformAdData adData with
    | Option.none => ⟨UpsertOutcome.error, db, 0⟩
    | some t =>
      let tAdId := (List.lookup "ad_id" t).getD Value.none
      match findAd db tAdId with
      | some r =>
        let (r', needs) := applyFields r t
        if needs then
          if fail tAdId then ⟨UpsertOutcome.error, db, 0⟩
          else
            ⟨UpsertOutcome.updated,
             replaceFirst db tAdId { r' with updatedAt := now }, 1⟩
        else ⟨UpsertOutcome.existing, db, 0⟩
      | Option.none =>
        if fail tAdId then ⟨UpsertOutcome.error, db, 0⟩
        else ⟨UpsertOutcome.new, db ++ [⟨t, now, now⟩], 1⟩

/-- upsert_ad with a storage layer that never fails. -/
def upsertAd (db : DB) (adData : AdData) (now : Nat) : UpsertResult :=
  upsertAdWith (fun _ => false) db adData now

/-- config.py BrowserConfig.RETRY_COUNT. -/
def RETRY_COUNT : Nat := 5

/-- config.py BrowserConfig.CHUNK_SIZE. -/
def CHUNK_SIZE : Nat := 2

/-- crawler.py line 36: `self.max_consecutive_timeouts = 3`.  Together
with `self.consecutive_timeouts = 0` (line 35) this is initialized in
`__init__` and never read anywhere else in the code base. -/
def maxConsecutiveTimeouts : Nat := 3

/-- What one navigation attempt of `extract_ad_details` observes:
either `page.goto` returns a response with a status code (and the page
then renders some content), or an exception is raised (with or without
`"Timeout"` in its message). -/
inductive AttemptOutcome where
  | status (code : Nat) (page : PageContent)
  | exn (isTimeout : Bool)

/-- How `extract_ad_details` terminates for one URL: it returns a dict,
returns `None`, or lets a timeout exception propagate (crawler.py
346-347). -/
inductive ExtractResult where
  | ok (data : AdData)
  | noneResult
  | timeoutRaised
deriving DecidableEq, Repr

/-- Playwright `response.ok`: status in the range 200-299. -/
def responseOk (code : Nat) : Bool :=
  decide (200 ≤ code) && decide (code ≤ 299)

/-- The `for attempt in range(RETRY_COUNT)` loop of
`extract_ad_details` (crawler.py 274-354).  `attempt` is the current
index, `fuel` the number of loop iterations still available after the
current one (`fuel + 1 = RETRY_COUNT - attempt` along real runs):
a 429 sleeps 30 s and `continue`s, a non-ok status `continue`s, an ok
status returns whatever `_extract_page_content` produces; an exception
re-raises if its message contains `"Timeout"`, returns `None` on the
last attempt, otherwise backs off and `continue`s; falling out of the
loop returns `None` (line 354). -/
def extractLoop (cid : String) (env : Nat → AttemptOutcome) :
    Nat → Nat → ExtractResult
  | _, 0 => ExtractResult.noneResult
  | attempt, fuel + 1 =>
    match env attempt with
    | AttemptOutcome.status code page =>
      if code = 429 then extractLoop cid env (attempt + 1) fuel
      else if !(responseOk code) then extractLoop cid env (attempt + 1) fuel
      else
        match extractPageContent cid page with
        | some d => ExtractResult.ok d
        | Option.none => ExtractResult.noneResult
    | AttemptOutcome.exn isT =>
      if isT then ExtractResult.timeoutRaised
      else if fuel = 0 then ExtractResult.noneResult
      else extractLoop cid env (attempt + 1) fuel

/-- AsyncLinkedInCrawler.extract_ad_details for one URL, starting at
attempt 0 with the full `RETRY_COUNT` budget. -/
def extractAdDetails (cid : String) (env : Nat → AttemptOutcome) : ExtractResult :=
  extractLoop cid env 0 RETRY_COUNT

/-- The `for ad in successful_ads: status = await self.upsert_ad(...)`
loop inside `process_chunk_with_retry` (crawler.py 679-686): upserts
in order, counting outcomes; an exception from `upsert_ad` aborts the
loop immediately (the remaining ads are not reconciled) and the raised
flag is reported to the chunk-level handler. -/
def upsertSeq (fail : Value → Bool) (now : Nat) :
    DB → List AdData → Nat × Nat × Nat × DB × Bool
  | db, [] => (0, 0, 0, db, false)
  | db, ad :: rest =>
    let u := upsertAdWith fail db ad now
    match u.outcome with
    | UpsertOutcome.error => (0, 0, 0, db, true)
    | o =>
      let (n, up, ex, db', raised) := upsertSeq fail now u.db rest
      ((if o = UpsertOutcome.new then n + 1 else n),
       (if o = UpsertOutcome.updated then up + 1 else up),
       (if o = UpsertOutcome.existing then ex + 1 else ex),
       db', raised)

/-- Result of processing one chunk: the counters returned to
`process_all_ads`, the table afterwards, and the ordered list of URLs
for which an extraction task was created (with multiplicity, one entry
per created task). -/
structure ChunkOut where
  newAds : Nat
  updatedAds : Nat
  existingAds : Nat
  db : DB
  attempted : List String
deriving DecidableEq, Repr

/-- The `for attempt in range(max_retries)` loop of
`process_chunk_with_retry` (crawler.py 645-711).  Each attempt
re-creates an extraction task per URL of the chunk, keeps the
successful dicts (exceptions and `None` results are logged and
dropped, lines 669-674), and upserts them in order; the counters
accumulate across attempts (they are initialized once, line 649).
If the upsert loop raises, the *whole chunk* is retried; if no ads
were successful, the attempt falls through to the next one; exhausting
`max_retries` returns `(0, 0, 0)` (lines 709-711), keeping whatever
per-record commits already happened. -/
def chunkAttempts (fail : Value → Bool) (envE : String → ExtractResult)
    (chunk : List String) (now : Nat) :
    Nat → Nat × Nat × Nat → DB → List String → ChunkOut
  | 0, _, db, att => ⟨0, 0, 0, db, att⟩
  | fuel + 1, counts, db, att =>
    let att' := att ++ chunk
    let results := chunk.map envE
    let successful := results.filterMap (fun r =>
      match r with
      | ExtractResult.ok d => some d
      | _ => Option.none)
    if successful.isEmpty then
      chunkAttempts fail envE chunk now fuel counts db att'
    else
      let (n, up, ex, db', raised) := upsertSeq fail now db successful
      let counts' := (counts.1 + n, counts.2.1 + up, counts.2.2 + ex)
      if raised then chunkAttempts fail envE chunk now fuel counts' db' att'
      else ⟨counts'.1, counts'.2.1, counts'.2.2, db', att'⟩

/-- AsyncLinkedInCrawler.process_chunk_with_retry with the default
`max_retries = 3`. -/
def processChunkWithRetry (fail : Value → Bool) (envE : String → ExtractResult)
    (chunk : List String) (db : DB) (now : Nat) : ChunkOut :=
  chunkAttempts fail envE chunk now 3 (0, 0, 0) db []

/-- `_chunk_urls` (crawler.py 380-383): consecutive slices of the
given size.  The fuel is the list length, which bounds the recursion
for any positive size. -/
def chunkAux (size : Nat) : Nat → List String → List (List String)
  | 0, _ => []
  | _, [] => []
  | fuel + 1, l => l.take size :: chunkAux size fuel (l.drop size)

/-- `_chunk_urls(urls, size)`. -/
def chunkUrls (urls : List String) (size : Nat) : List (List String) :=
  chunkAux size urls.length urls

/-- Result of `process_all_ads`: `processedCount` is the return value
(line 272), the outcome counters feed the end-of-run metrics, and
`attempted` records every extraction task created across all chunks. -/
structure RunOut where
  processedCount : Nat
  newAds : Nat
  updatedAds : Nat
  existingAds : Nat
  db : DB
  attempted : List String
deriving DecidableEq, Repr

/-- The per-chunk accumulation step of `process_all_ads`
(crawler.py 219-238): `processed_count += new + updated + existing`. -/
def runStep (fail : Value → Bool) (envE : String → ExtractResult) (now : Nat)
    (acc : RunOut) (chunk : List String) : RunOut :=
  let c := processChunkWithRetry fail envE chunk acc.db now
  { processedCount := acc.processedCount + c.newAds + c.updatedAds + c.existingAds
    newAds := acc.newAds + c.newAds
    updatedAds := acc.updatedAds + c.updatedAds
    existingAds := acc.existingAds + c.existingAds
    db := c.db
    attempted := acc.attempted ++ c.attempted }

/-- AsyncLinkedInCrawler.process_all_ads (crawler.py 185-272): return
0 immediately on an empty frontier, else drain the chunks in order.
No consecutive-failure state is consulted anywhere in this loop —
`consecutive_timeouts` / `max_consecutive_timeouts` (lines 35-36) are
initialized in `__init__` and never read. -/
def processAllAds (fail : Value → Bool) (envE : String → ExtractResult)
    (urls : List String) (db : DB) (now : Nat) : RunOut :=
  if urls.isEmpty then ⟨0, 0, 0, 0, db, []⟩
  else
    (chunkUrls urls CHUNK_SIZE).foldl (runStep fail envE now)
      ⟨0, 0, 0, 0, db, []⟩

/-- crawler.py line 98: `base_wait_time = 2`. -/
def baseWaitTime : Nat := 2

/-- crawler.py line 99: `increment = 1`. -/
def increment : Nat := 1

/-- What one iteration of the scroll loop observes: the value of
`document.body.scrollHeight`, whether the `try` block of lines 113-144
raises (modelled at the link-query step, after the pacing sleep), and
the hrefs matching the detail-link selector. -/
structure ScrollStep where
  height : Nat
  scrollError : Bool
  links : List String

/-- The environment driving one discovery run: the initial navigation
outcome (`navFailed` models exhausting the 3 navigation retries of
lines 76-85, which returns with an empty frontier), the per-iteration
page observations, and the observations of the final verification pass
(lines 152-175). -/
structure DiscoveryEnv where
  navFailed : Bool
  steps : Nat → ScrollStep
  finalLinks : List String
  finalError : Bool

/-- The mutable state of `collect_ad_urls` (crawler.py 87-99):
`detailUrls` is `self.detail_urls` kept in insertion order,
`waitLog` records each pacing sleep as the pair (seconds slept,
`consecutive_unchanged_counts` at that moment). -/
structure LoopState where
  detailUrls : List String
  prevLinksCount : Nat
  consecUnchanged : Nat
  scrollCount : Nat
  lastHeight : Nat
  waitLog : List (Nat × Nat)
deriving DecidableEq, Repr

/-- Initial state of a discovery run. -/
def initState : LoopState :=
  ⟨[], 0, 0, 0, 0, []⟩

/-- Merge freshly queried links into the frontier (crawler.py
131-137): normalize each href by stripping the query string, and add
it only if not already present. -/
def addLinks (detail : List String) (links : List String) : List String :=
  links.foldl (fun acc link =>
    let c := stripQuery link
    if c ∈ acc then acc else acc ++ [c]) detail

/-- One iteration of the `while True` scroll loop (crawler.py
101-149): read the height and update `consecutive_unchanged_counts`
(lines 105-111), sleep `base_wait_time + scroll_count * increment`
(line 123), query and merge links (lines 126-143) — or, if the try
block raises, bump the unchanged counter instead (line 147) — then
`scroll_count += 1`. -/
def iterOnce (env : DiscoveryEnv) (st : LoopState) : LoopState :=
  let step := env.steps st.scrollCount
  let consec := if step.height = st.lastHeight then st.consecUnchanged + 1 else 0
  let lastH := if step.height = st.lastHeight then st.lastHeight else step.height
  let wait := baseWaitTime + st.scrollCount * increment
  if step.scrollError then
    { detailUrls := st.detailUrls
      prevLinksCount := st.prevLinksCount
      consecUnchanged := consec + 1
      scrollCount := st.scrollCount + 1
      lastHeight := lastH
      waitLog := st.waitLog ++ [(wait, consec)] }
  else
    { detailUrls := addLinks st.detailUrls step.links
      prevLinksCount := ((step.links.map stripQuery).dedup).length
      consecUnchanged := consec
      scrollCount := st.scrollCount + 1
      lastHeight := lastH
      waitLog := st.waitLog ++ [(wait, consec)] }

/-- The final verification pass (crawler.py 152-175): scroll up and
down once more and merge any additional links, unless that pass itself
raises. -/
def finalPass (env : DiscoveryEnv) (st : LoopState) : LoopState :=
  if env.finalError then st
  else { st with detailUrls := addLinks st.detailUrls env.finalLinks }

/-- The scroll loop with its two exit conditions (crawler.py
152 and 178): stop with a verification pass once
`consecutive_unchanged_counts >= 5 and scroll_count >= 3`, and stop
unconditionally once `scroll_count > 50`.  The structural fuel is
irrelevant whenever it is at least `51 - scroll_count`, because the
hard ceiling fires first (proved below). -/
def collectLoopF (env : DiscoveryEnv) : Nat → LoopState → LoopState
  | 0, st => st
  | fuel + 1, st =>
    let st1 := iterOnce env st
    if 5 ≤ st1.consecUnchanged ∧ 3 ≤ st1.scrollCount then finalPass env st1
    else if 50 < st1.scrollCount then st1
    else collectLoopF env fuel st1

/-- AsyncLinkedInCrawler.collect_ad_urls (crawler.py 47-183): an
initial-navigation failure that exhausts its retries returns with an
empty frontier; otherwise the scroll loop runs (fuel 51 is exact:
the hard ceiling stops the loop after at most 51 iterations). -/
def collectAdUrls (env : DiscoveryEnv) : LoopState :=
  if env.navFailed then initState
  else collectLoopF env 51 initState

/-- A column value whose runtime type is neither `date` nor
`list`/`dict`, so the scalar comparison branch of `upsert_ad`
(crawler.py line 584) applies to it. -/
def scalarish : Value → Bool
  | Value.date _ _ _ => false
  | Value.impressions _ => false
  | _ => true

theorem lookup_setPair_self (l : List (String × Value)) (k : String) (v : Value) :
    List.lookup k (setPair l k v) = some v := by
  induction l with
  | nil => simp [setPair, List.lookup]
  | cons p rest ih =>
    obtain ⟨g, w⟩ := p
    by_cases h : g = k
    · subst h; simp [setPair, List.lookup]
    · have hbeq : (k == g) = false := beq_eq_false_iff_ne.mpr (Ne.symm h)
      simp [setPair, h, List.lookup, hbeq, ih]

theorem lookup_setPair_ne (l : List (String × Value)) (k g : String) (v : Value)
    (h : g ≠ k) : List.lookup g (setPair l k v) = List.lookup g l := by
  have hbeq : (g == k) = false := beq_eq_false_iff_ne.mpr h
  induction l with
  | nil => simp [setPair, List.lookup, hbeq]
  | cons p rest ih =>
    obtain ⟨a, w⟩ := p
    by_cases ha : a = k
    · subst ha
      simp [setPair, List.lookup, hbeq]
    · simp [setPair, ha, List.lookup, ih]

theorem getField_setField_self (r : StoredAd) (f : String) (v : Value) :
    getField (setField r f v) f = v := by
  simp [getField, setField, lookup_setPair_self]

theorem getField_setField_ne (r : StoredAd) (f g : String) (v : Value)
    (h : g ≠ f) : getField (setField r f v) g = getField r g := by
  simp [getField, setField, lookup_setPair_ne _ _ _ _ h]

theorem setField_createdAt (r : StoredAd) (f : String) (v : Value) :
    (setField r f v).createdAt = r.createdAt := rfl

theorem setField_updatedAt (r : StoredAd) (f : String) (v : Value) :
    (setField r f v).updatedAt = r.updatedAt := rfl

theorem fieldUpdateGuard_self (v : Value) : fieldUpdateGuard v v = false := by
  cases v <;> simp [fieldUpdateGuard]

theorem keys_setPair (l : List (String × Value)) (k : String) (v : Value) :
    (setPair l k v).map Prod.fst =
      if k ∈ l.map Prod.fst then l.map Prod.fst else l.map Prod.fst ++ [k] := by
  induction l with
  | nil => simp [setPair]
  | cons p rest ih =>
    obtain ⟨g, w⟩ := p
    by_cases hg : g = k
    · subst hg
      simp [setPair]
    · have hkg : ¬ k = g := fun he => hg he.symm
      by_cases hmem : k ∈ rest.map Prod.fst
      · simp [setPair, hg, ih, hmem, hkg]
      · simp [setPair, hg, ih, hmem, hkg]

theorem nodup_keys_setPair (l : List (String × Value)) (k : String) (v : Value)
    (h : (l.map Prod.fst).Nodup) : ((setPair l k v).map Prod.fst).Nodup := by
  rw [keys_setPair]
  by_cases hmem : k ∈ l.map Prod.fst
  · simpa [hmem] using h
  · rw [if_neg hmem]
    refine List.nodup_append.mpr ⟨h, List.nodup_singleton k, ?_⟩
    intro x hx hxk
    have hxk' : x = k := List.mem_singleton.mp hxk
    subst hxk'
    exact hmem hx

theorem applyFields_nochange (t : List (String × Value)) :
    ∀ r : StoredAd, (∀ p ∈ t, p.1 = "ad_id" ∨ getField r p.1 = p.2) →
      applyFields r t = (r, false) := by
  induction t with
  | nil => intro r _; rfl
  | cons p rest ih =>
    intro r h
    obtain ⟨f, v⟩ := p
    by_cases hf : f = "ad_id"
    · simp only [applyFields]
      rw [if_pos hf]
      exact ih r (fun q hq => h q (List.mem_cons_of_mem _ hq))
    · have hv : getField r f = v := by
        rcases h (f, v) (List.mem_cons_self _ _) with h1 | h1
        · exact absurd h1 hf
        · exact h1
      have hguard : ¬ fieldUpdateGuard (getField r f) v = true := by
        rw [hv, fieldUpdateGuard_self v]; simp
      simp only [applyFields]
      rw [if_neg hf, if_neg hguard]
      exact ih r (fun q hq => h q (List.mem_cons_of_mem _ hq))

theorem applyFields_snd_false (t : List (String × Value)) :
    ∀ r : StoredAd, (applyFields r t).2 = false → (applyFields r t).1 = r := by
  induction t with
  | nil => intro r _; rfl
  | cons p rest ih =>
    intro r h
    obtain ⟨f, v⟩ := p
    by_cases hf : f = "ad_id"
    · simp only [applyFields] at h ⊢
      rw [if_pos hf] at h ⊢
      exact ih r h
    · by_cases hguard : fieldUpdateGuard (getField r f) v = true
      · simp only [applyFields] at h
        rw [if_neg hf, if_pos hguard] at h
        simp at h
      · simp only [applyFields] at h ⊢
        rw [if_neg hf, if_neg hguard] at h ⊢
        exact ih r h

theorem applyFields_notin (t : List (String × Value)) (f : String) :
    ∀ r : StoredAd, f ∉ t.map Prod.fst →
      getField (applyFields r t).1 f = getField r f := by
  induction t with
  | nil => intro r _; rfl
  | cons p rest ih =>
    intro r h
    obtain ⟨g, v⟩ := p
    simp only [List.map_cons, List.mem_cons] at h
    push_neg at h
    obtain ⟨hfg, hrest⟩ := h
    by_cases hg : g = "ad_id"
    · simp only [applyFields]
      rw [if_pos hg]
      exact ih r hrest
    · by_cases hguard : fieldUpdateGuard (getField r g) v = true
      · simp only [applyFields]
        rw [if_neg hg, if_pos hguard]
        show getField (applyFields (setField r g v) rest).1 f = getField r f
        rw [ih (setField r g v) hrest]
        exact getField_setField_ne r g f v hfg
      · simp only [applyFields]
        rw [if_neg hg, if_neg hguard]
        exact ih r hrest

theorem applyFields_adid (t : List (String × Value)) :
    ∀ r : StoredAd, getField (applyFields r t).1 "ad_id" = getField r "ad_id" := by
  induction t with
  | nil => intro r; rfl
  | cons p rest ih =>
    intro r
    obtain ⟨g, v⟩ := p
    by_cases hg : g = "ad_id"
    · simp only [applyFields]
      rw [if_pos hg]
      exact ih r
    · by_cases hguard : fieldUpdateGuard (getField r g) v = true
      · simp only [applyFields]
        rw [if_neg hg, if_pos hguard]
        show getField (applyFields (setField r g v) rest).1 "ad_id" =
          getField r "ad_id"
        rw [ih (setField r g v)]
        exact getField_setField_ne r g "ad_id" v (Ne.symm hg)
      · simp only [applyFields]
        rw [if_neg hg, if_neg hguard]
        exact ih r

theorem applyFields_single (t : List (String × Value)) :
    ∀ r : StoredAd, ∀ f v,
      (t.map Prod.fst).Nodup → (f, v) ∈ t → f ≠ "ad_id" →
      fieldUpdateGuard (getField r f) v = true →
      (∀ p ∈ t, p.1 ≠ f → p.1 = "ad_id" ∨ getField r p.1 = p.2) →
      applyFields r t = (setField r f v, true) := by
  induction t with
  | nil => intro r f v _ hmem; exact absurd hmem (List.not_mem_nil _)
  | cons p rest ih =>
    intro r f v hnd hmem hfid hguard hothers
    obtain ⟨g, w⟩ := p
    simp only [List.map_cons, List.nodup_cons] at hnd
    rcases List.mem_cons.mp hmem with hhead | htail
    · have hg : g = f := (Prod.ext_iff.mp hhead).1.symm
      subst hg
      have hw : w = v := (Prod.ext_iff.mp hhead).2.symm
      subst hw
      simp only [applyFields]
      rw [if_neg hfid, if_pos hguard]
      have hrest : applyFields (setField r g w) rest = (setField r g w, false) := by
        apply applyFields_nochange
        intro q hq
        have hqf : q.1 ≠ g := fun he => hnd.1 (he ▸ List.mem_map_of_mem Prod.fst hq)
        rcases hothers q (List.mem_cons_of_mem _ hq) hqf with h1 | h1
        · exact Or.inl h1
        · exact Or.inr (by rw [getField_setField_ne r g q.1 w hqf]; exact h1)
      rw [hrest]
    · have hgf : g ≠ f := by
        intro he
        exact hnd.1 (he ▸ List.mem_map_of_mem Prod.fst htail)
      by_cases hg : g = "ad_id"
      · simp only [applyFields]
        rw [if_pos hg]
        exact ih r f v hnd.2 htail hfid hguard
          (fun q hq hqf => hothers q (List.mem_cons_of_mem _ hq) hqf)
      · have hw : getField r g = w := by
          rcases hothers (g, w) (List.mem_cons_self _ _) hgf with h1 | h1
          · exact absurd h1 hg
          · exact h1
        have hguard2 : ¬ fieldUpdateGuard (getField r g) w = true := by
          rw [hw, fieldUpdateGuard_self w]; simp
        simp only [applyFields]
        rw [if_neg hg, if_neg hguard2]
        exact ih r f v hnd.2 htail hfid hguard
          (fun q hq hqf => hothers q (List.mem_cons_of_mem _ hq) hqf)

theorem scalarish_guard (cur v : Value) (hsc : scalarish cur = true) :
    fieldUpdateGuard cur v = decide (v ≠ cur) := by
  cases cur with
  | date y m d => simp [scalarish] at hsc
  | impressions l => simp [scalarish] at hsc
  | none => rfl
  | str s => rfl
  | int n => rfl

theorem applyFields_field_scalar (t : List (String × Value)) :
    ∀ r : StoredAd, ∀ f v,
      (t.map Prod.fst).Nodup → (f, v) ∈ t → f ≠ "ad_id" →
      scalarish (getField r f) = true →
      getField (applyFields r t).1 f = v := by
  induction t with
  | nil => intro r f v _ hmem; exact absurd hmem (List.not_mem_nil _)
  | cons p rest ih =>
    intro r f v hnd hmem hfid hsc
    obtain ⟨g, w⟩ := p
    simp only [List.map_cons, List.nodup_cons] at hnd
    rcases List.mem_cons.mp hmem with hhead | htail
    · have hg : g = f := (Prod.ext_iff.mp hhead).1.symm
      subst hg
      have hw : w = v := (Prod.ext_iff.mp hhead).2.symm
      subst hw
      have hnotin : g ∉ rest.map Prod.fst := hnd.1
      by_cases hguard : fieldUpdateGuard (getField r g) w = true
      · simp only [applyFields]
        rw [if_neg hfid, if_pos hguard]
        show getField (applyFields (setField r g w) rest).1 g = w
        rw [applyFields_notin rest g (setField r g w) hnotin]
        exact getField_setField_self r g w
      · have heq : getField r g = w := by
          rw [scalarish_guard (getField r g) w hsc] at hguard
          simp at hguard
          exact hguard.symm
        simp only [applyFields]
        rw [if_neg hfid, if_neg hguard]
        rw [applyFields_notin rest g r hnotin]
        exact heq
    · have hgf : g ≠ f := by
        intro he
        exact hnd.1 (he ▸ List.mem_map_of_mem Prod.fst htail)
      by_cases hg : g = "ad_id"
      · simp only [applyFields]
        rw [if_pos hg]
        exact ih r f v hnd.2 htail hfid hsc
      · by_cases hguard : fieldUpdateGuard (getField r g) w = true
        · simp only [applyFields]
          rw [if_neg hg, if_pos hguard]
          show getField (applyFields (setField r g w) rest).1 f = v
          have hsc2 : scalarish (getField (setField r g w) f) = true := by
            rw [getField_setField_ne r g f w (fun he => hgf he.symm)]; exact hsc
          exact ih (setField r g w) f v hnd.2 htail hfid hsc2
        · simp only [applyFields]
          rw [if_neg hg, if_neg hguard]
          exact ih r f v hnd.2 htail hfid hsc

theorem lookup_filterMap_notmem (fields : List String) (data : AdData) (k : String)
    (hk : k ∉ fields) :
    List.lookup k (fields.filterMap fun f => (List.lookup f data).map (fun v => (f, v))) =
      Option.none := by
  induction fields with
  | nil => rfl
  | cons f rest ih =>
    simp only [List.mem_cons] at hk
    push_neg at hk
    obtain ⟨hkf, hkr⟩ := hk
    cases hv : List.lookup f data with
    | none => simpa [List.filterMap_cons, hv] using ih hkr
    | some v =>
      have hbeq : (k == f) = false := beq_eq_false_iff_ne.mpr hkf
      simp [List.filterMap_cons, hv, List.lookup, hbeq, ih hkr]

theorem lookup_filterMap_mem (fields : List String) (data : AdData) (k : String)
    (hk : k ∈ fields) (hnd : fields.Nodup) :
    List.lookup k (fields.filterMap fun f => (List.lookup f data).map (fun v => (f, v))) =
      List.lookup k data := by
  induction fields with
  | nil => exact absurd hk (List.not_mem_nil k)
  | cons f rest ih =>
    simp only [List.nodup_cons] at hnd
    by_cases hkf : k = f
    · subst hkf
      cases hv : List.lookup k data with
      | none =>
        rw [List.filterMap_cons, hv]
        exact lookup_filterMap_notmem rest data k hnd.1
      | some v =>
        simp [List.filterMap_cons, hv, List.lookup]
    · have hkr : k ∈ rest := by
        rcases List.mem_cons.mp hk with h1 | h1
        · exact absurd h1 hkf
        · exact h1
      cases hv : List.lookup f data with
      | none => simpa [List.filterMap_cons, hv] using ih hkr hnd.2
      | some v =>
        have hbeq : (k == f) = false := beq_eq_false_iff_ne.mpr hkf
        simp [List.filterMap_cons, hv, List.lookup, hbeq, ih hkr hnd.2]

theorem keys_filterMap_sublist (fields : List String) (data : AdData) :
    ((fields.filterMap fun f => (List.lookup f data).map (fun v => (f, v))).map
      Prod.fst).Sublist fields := by
  induction fields with
  | nil => simp
  | cons f rest ih =>
    cases hv : List.lookup f data with
    | none =>
      rw [List.filterMap_cons, hv]
      exact List.Sublist.cons f ih
    | some v =>
      rw [List.filterMap_cons, hv]
      simpa using List.Sublist.cons₂ f ih

theorem lookup_directCopy (data : AdData) (k : String) (hk : k ∈ directFields) :
    List.lookup k (directCopy data) = List.lookup k data :=
  lookup_filterMap_mem directFields data k hk (by decide)

theorem keys_directCopy_nodup (data : AdData) :
    ((directCopy data).map Prod.fst).Nodup :=
  List.Nodup.sublist (keys_filterMap_sublist directFields data) (by decide)

theorem dateStep_shape (data t : AdData) (df : String) (t' : AdData)
    (h : dateStep data t df = some t') :
    t' = t ∨ ∃ v, t' = setPair t df v := by
  unfold dateStep at h
  by_cases ht : truthy (lookupData data df) = true
  · rw [if_pos ht] at h
    cases hv : lookupData data df with
    | str s =>
      rw [hv] at h
      simp only [Option.some.injEq] at h
      exact Or.inr ⟨_, h.symm⟩
    | none => rw [hv] at h; simp at h
    | int n => rw [hv] at h; simp at h
    | date y m d => rw [hv] at h; simp at h
    | impressions l => rw [hv] at h; simp at h
  · rw [if_neg ht] at h
    simp only [Option.some.injEq] at h
    exact Or.inl h.symm

theorem imprStep_shape (data t : AdData) (t' : AdData)
    (h : imprStep data t = some t') :
    t' = t ∨ ∃ v, t' = setPair t "campaign_impressions_by_country" v := by
  unfold imprStep at h
  cases hv : List.lookup "campaign_impressions_by_country" data with
  | none =>
    rw [hv] at h
    simp only [Option.some.injEq] at h
    exact Or.inl h.symm
  | some v =>
    rw [hv] at h
    cases v with
    | impressions l =>
      simp only [Option.some.injEq] at h
      exact Or.inr ⟨_, h.symm⟩
    | none => simp at h
    | str s => simp at h
    | int n => simp at h
    | date y m d => simp at h

theorem shape_lookup_ne (t t' : AdData) (k0 k : String)
    (hsh : t' = t ∨ ∃ v, t' = setPair t k0 v) (hk : k ≠ k0) :
    List.lookup k t' = List.lookup k t := by
  rcases hsh with h | ⟨v, h⟩
  · rw [h]
  · rw [h]; exact lookup_setPair_ne t k0 k v hk

theorem shape_keys_nodup (t t' : AdData) (k0 : String)
    (hsh : t' = t ∨ ∃ v, t' = setPair t k0 v) (hnd : (t.map Prod.fst).Nodup) :
    (t'.map Prod.fst).Nodup := by
  rcases hsh with h | ⟨v, h⟩
  · rw [h]; exact hnd
  · rw [h]; exact nodup_keys_setPair t k0 v hnd

theorem lookup_mapConv_ne (t : AdData) (k : String) (hk : k ≠ "company_id") :
    List.lookup k (t.map fun p =>
      if p.1 = "company_id" then (p.1, pyIntOfValue p.2) else p) =
    List.lookup k t := by
  induction t with
  | nil => rfl
  | cons p rest ih =>
    obtain ⟨g, w⟩ := p
    by_cases hg : g = "company_id"
    · subst hg
      have hbeq : (k == "company_id") = false := beq_eq_false_iff_ne.mpr hk
      simp [List.lookup, hbeq, ih]
    · simp only [List.map_cons, if_neg hg]
      by_cases hkg : k = g
      · subst hkg; simp [List.lookup]
      · have hbeq : (k == g) = false := beq_eq_false_iff_ne.mpr hkg
        simp [List.lookup, hbeq, ih]

theorem lookup_mapConv_company (t : AdData) :
    List.lookup "company_id" (t.map fun p =>
      if p.1 = "company_id" then (p.1, pyIntOfValue p.2) else p) =
    (List.lookup "company_id" t).map pyIntOfValue := by
  induction t with
  | nil => rfl
  | cons p rest ih =>
    obtain ⟨g, w⟩ := p
    by_cases hg : g = "company_id"
    · subst hg
      simp [List.lookup]
    · have hbeq : (("company_id" : String) == g) = false :=
        beq_eq_false_iff_ne.mpr (Ne.symm hg)
      simp only [List.map_cons, if_neg hg]
      simp [List.lookup, hbeq, ih]

theorem lookup_companyConv_ne (t : AdData) (k : String) (hk : k ≠ "company_id") :
    List.lookup k (companyConv t) = List.lookup k t := by
  unfold companyConv
  by_cases hs : (List.lookup "company_id" t).isSome
  · rw [if_pos hs]; exact lookup_mapConv_ne t k hk
  · rw [if_neg hs]

theorem lookup_companyConv_company (t : AdData) :
    List.lookup "company_id" (companyConv t) =
      (List.lookup "company_id" t).map pyIntOfValue := by
  unfold companyConv
  by_cases hs : (List.lookup "company_id" t).isSome
  · rw [if_pos hs]; exact lookup_mapConv_company t
  · rw [if_neg hs]
    rw [Option.not_isSome_iff_eq_none] at hs
    rw [hs]; rfl

theorem keys_companyConv (t : AdData) :
    (companyConv t).map Prod.fst = t.map Prod.fst := by
  unfold companyConv
  by_cases hs : (List.lookup "company_id" t).isSome
  · rw [if_pos hs, List.map_map]
    apply List.map_congr_left
    intro p _
    by_cases hg : p.1 = "company_id"
    · simp [hg]
    · simp [hg]
  · rw [if_neg hs]

theorem transform_destruct (data t : AdData) (h : transformAdData data = some t) :
    ∃ t1 t2 t3,
      dateStep data (directCopy data) "campaign_start_date" = some t1 ∧
      dateStep data t1 "campaign_end_date" = some t2 ∧
      imprStep data t2 = some t3 ∧ t = companyConv t3 := by
  unfold transformAdData at h
  cases h1 : dateStep data (directCopy data) "campaign_start_date" with
  | none => rw [h1] at h; simp at h
  | some t1 =>
    rw [h1] at h
    dsimp only at h
    cases h2 : dateStep data t1 "campaign_end_date" with
    | none => rw [h2] at h; simp at h
    | some t2 =>
      rw [h2] at h
      dsimp only at h
      cases h3 : imprStep data t2 with
      | none => rw [h3] at h; simp at h
      | some t3 =>
        rw [h3] at h
        simp only [Option.some.injEq] at h
        exact ⟨t1, t2, t3, rfl, h2, h3, h.symm⟩

theorem transform_lookup_adid (data t : AdData) (h : transformAdData data = some t) :
    List.lookup "ad_id" t = List.lookup "ad_id" data := by
  obtain ⟨t1, t2, t3, h1, h2, h3, ht⟩ := transform_destruct data t h
  rw [ht, lookup_companyConv_ne t3 "ad_id" (by decide),
      shape_lookup_ne t2 t3 _ _ (imprStep_shape data t2 t3 h3) (by decide),
      shape_lookup_ne t1 t2 _ _ (dateStep_shape data t1 _ t2 h2) (by decide),
      shape_lookup_ne (directCopy data) t1 _ _
        (dateStep_shape data (directCopy data) _ t1 h1) (by decide)]
  exact lookup_directCopy data "ad_id" (by decide)

theorem transform_lookup_company (data t : AdData)
    (h : transformAdData data = some t) :
    List.lookup "company_id" t =
      (List.lookup "company_id" data).map pyIntOfValue := by
  obtain ⟨t1, t2, t3, h1, h2, h3, ht⟩ := transform_destruct data t h
  rw [ht, lookup_companyConv_company t3,
      shape_lookup_ne t2 t3 _ _ (imprStep_shape data t2 t3 h3) (by decide),
      shape_lookup_ne t1 t2 _ _ (dateStep_shape data t1 _ t2 h2) (by decide),
      shape_lookup_ne (directCopy data) t1 _ _
        (dateStep_shape data (directCopy data) _ t1 h1) (by decide)]
  rw [lookup_directCopy data "company_id" (by decide)]

theorem transform_keys_nodup (data t : AdData) (h : transformAdData data = some t) :
    (t.map Prod.fst).Nodup := by
  obtain ⟨t1, t2, t3, h1, h2, h3, ht⟩ := transform_destruct data t h
  rw [ht, keys_companyConv]
  exact shape_keys_nodup t2 t3 _ (imprStep_shape data t2 t3 h3)
    (shape_keys_nodup t1 t2 _ (dateStep_shape data t1 _ t2 h2)
      (shape_keys_nodup (directCopy data) t1 _
        (dateStep_shape data (directCopy data) _ t1 h1)
        (keys_directCopy_nodup data)))

theorem findAd_mem (db : DB) (idv : Value) (r : StoredAd)
    (h : findAd db idv = some r) : r ∈ db :=
  List.mem_of_find?_eq_some h

theorem findAd_adid (db : DB) (idv : Value) (r : StoredAd)
    (h : findAd db idv = some r) : getField r "ad_id" = idv := by
  have := List.find?_some h
  simpa using this

theorem findAd_append_right (db : DB) (idv : Value) (row : StoredAd)
    (hnone : findAd db idv = Option.none) (hrow : getField row "ad_id" = idv) :
    findAd (db ++ [row]) idv = some row := by
  induction db with
  | nil => simp [findAd, List.find?, hrow]
  | cons r rest ih =>
    unfold findAd at hnone ⊢
    cases hdec : decide (getField r "ad_id" = idv) with
    | true => simp [List.find?, hdec] at hnone
    | false =>
      simp only [List.find?, hdec, List.cons_append] at hnone ⊢
      exact ih hnone

theorem replaceFirst_find (db : DB) (idv : Value) (row : StoredAd)
    (r : StoredAd) (hfind : findAd db idv = some r)
    (hrow : getField row "ad_id" = idv) :
    findAd (replaceFirst db idv row) idv = some row := by
  induction db with
  | nil => simp [findAd, List.find?] at hfind
  | cons r0 rest ih =>
    unfold findAd at hfind ⊢
    by_cases h0 : getField r0 "ad_id" = idv
    · rw [replaceFirst, if_pos h0]
      simp [List.find?, hrow]
    · rw [replaceFirst, if_neg h0]
      have hdec : decide (getField r0 "ad_id" = idv) = false := by
        simpa using h0
      simp only [List.find?, hdec] at hfind ⊢
      exact ih hfind

theorem replaceFirst_mem (db : DB) (idv : Value) (row : StoredAd) :
    ∀ x ∈ replaceFirst db idv row, x ∈ db ∨ x = row := by
  induction db with
  | nil => intro x hx; simp [replaceFirst] at hx
  | cons r0 rest ih =>
    intro x hx
    by_cases h0 : getField r0 "ad_id" = idv
    · rw [replaceFirst, if_pos h0] at hx
      rcases List.mem_cons.mp hx with h1 | h1
      · exact Or.inr h1
      · exact Or.inl (List.mem_cons_of_mem _ h1)
    · rw [replaceFirst, if_neg h0] at hx
      rcases List.mem_cons.mp hx with h1 | h1
      · exact Or.inl (h1 ▸ List.mem_cons_self _ _)
      · rcases ih x h1 with h2 | h2
        · exact Or.inl (List.mem_cons_of_mem _ h2)
        · exact Or.inr h2

theorem upsert_existing_of_same (db : DB) (adData t : AdData) (r : StoredAd)
    (now : Nat)
    (hval : truthy (lookupData adData "ad_id") = true)
    (htr : transformAdData adData = some t)
    (hfind : findAd db ((List.lookup "ad_id" t).getD Value.none) = some r)
    (hsame : ∀ p ∈ t, p.1 = "ad_id" ∨ getField r p.1 = p.2) :
    upsertAd db adData now = ⟨UpsertOutcome.existing, db, 0⟩ := by
  unfold upsertAd upsertAdWith
  rw [hval]
  rw [if_neg (by simp : ¬ (true = false))]
  rw [htr]
  dsimp only
  rw [hfind]
  dsimp only
  rw [applyFields_nochange t r hsame]
  dsimp only
  rw [if_neg (by simp : ¬ (false = true))]

theorem upsert_updated_single (db : DB) (adData t : AdData) (r : StoredAd)
    (now : Nat) (f : String) (v : Value)
    (hval : truthy (lookupData adData "ad_id") = true)
    (htr : transformAdData adData = some t)
    (hfind : findAd db ((List.lookup "ad_id" t).getD Value.none) = some r)
    (hmem : (f, v) ∈ t) (hfid : f ≠ "ad_id")
    (hguard : fieldUpdateGuard (getField r f) v = true)
    (hothers : ∀ p ∈ t, p.1 ≠ f → p.1 = "ad_id" ∨ getField r p.1 = p.2) :
    upsertAd db adData now =
      ⟨UpsertOutcome.updated,
       replaceFirst db ((List.lookup "ad_id" t).getD Value.none)
         ⟨setPair r.fields f v, r.createdAt, now⟩, 1⟩ := by
  unfold upsertAd upsertAdWith
  rw [hval]
  rw [if_neg (by simp : ¬ (true = false))]
  rw [htr]
  dsimp only
  rw [hfind]
  dsimp only
  rw [applyFields_single t r f v (transform_keys_nodup adData t htr) hmem hfid
    hguard hothers]
  dsimp only
  rw [if_pos rfl]
  rfl

theorem lookup_mem (l : List (String × Value)) (k : String) (v : Value)
    (h : List.lookup k l = some v) : (k, v) ∈ l := by
  induction l with
  | nil => simp [List.lookup] at h
  | cons p rest ih =>
    obtain ⟨g, w⟩ := p
    by_cases hkg : k = g
    · subst hkg
      simp only [List.lookup, beq_self_eq_true] at h
      simp only [Option.some.injEq] at h
      subst h
      exact List.mem_cons_self _ _
    · have hbeq : (k == g) = false := beq_eq_false_iff_ne.mpr hkg
      simp only [List.lookup, hbeq] at h
      exact List.mem_cons_of_mem _ (ih h)

theorem upsert_adid_invariant (fail : Value → Bool) (db : DB) (adData : AdData)
    (now : Nat)
    (hdb : ∀ r ∈ db, truthy (getField r "ad_id") = true) :
    ∀ x ∈ (upsertAdWith fail db adData now).db,
      truthy (getField x "ad_id") = true := by
  intro x hx
  unfold upsertAdWith at hx
  by_cases hval : truthy (lookupData adData "ad_id") = false
  · rw [if_pos hval] at hx
    exact hdb x hx
  · rw [if_neg hval] at hx
    have hval' : truthy (lookupData adData "ad_id") = true := by
      cases hb : truthy (lookupData adData "ad_id") with
      | false => exact absurd hb hval
      | true => rfl
    cases htr : transformAdData adData with
    | none =>
      rw [htr] at hx
      exact hdb x hx
    | some t =>
      rw [htr] at hx
      dsimp only at hx
      cases hfind : findAd db ((List.lookup "ad_id" t).getD Value.none) with
      | some r =>
        rw [hfind] at hx
        dsimp only at hx
        cases happ : applyFields r t with
        | mk r' needs =>
          rw [happ] at hx
          dsimp only at hx
          cases needs with
          | false =>
            rw [if_neg (by simp : ¬ (false = true))] at hx
            exact hdb x hx
          | true =>
            rw [if_pos rfl] at hx
            by_cases hfail : fail ((List.lookup "ad_id" t).getD Value.none) = true
            · rw [if_pos hfail] at hx
              exact hdb x hx
            · rw [if_neg hfail] at hx
              dsimp only at hx
              rcases replaceFirst_mem db _ _ x hx with h1 | h1
              · exact hdb x h1
              · subst h1
                have hr' : r' = (applyFields r t).1 := by rw [happ]
                have : getField { r' with updatedAt := now } "ad_id" =
                    getField r "ad_id" := by
                  show getField r' "ad_id" = getField r "ad_id"
                  rw [hr']
                  exact applyFields_adid t r
                rw [this]
                exact hdb r (findAd_mem db _ r hfind)
      | none =>
        rw [hfind] at hx
        dsimp only at hx
        by_cases hfail : fail ((List.lookup "ad_id" t).getD Value.none) = true
        · rw [if_pos hfail] at hx
          exact hdb x hx
        · rw [if_neg hfail] at hx
          dsimp only at hx
          rcases List.mem_append.mp hx with h1 | h1
          · exact hdb x h1
          · have hxr : x = ⟨t, now, now⟩ := List.mem_singleton.mp h1
            subst hxr
            have : getField (⟨t, now, now⟩ : StoredAd) "ad_id" =
                lookupData adData "ad_id" := by
              show (List.lookup "ad_id" t).getD Value.none = _
              rw [transform_lookup_adid adData t htr]
              rfl
            rw [this]
            exact hval'

theorem upsert_company_persisted (db : DB) (adData t : AdData) (now : Nat)
    (n : Int)
    (hval : truthy (lookupData adData "ad_id") = true)
    (htr : transformAdData adData = some t)
    (hcomp : List.lookup "company_id" t = some (Value.int n))
    (hscal : ∀ r ∈ db, scalarish (getField r "company_id") = true) :
    ∃ row,
      findAd (upsertAd db adData now).db
        ((List.lookup "ad_id" t).getD Value.none) = some row ∧
      getField row "company_id" = Value.int n := by
  have hmemc : ("company_id", Value.int n) ∈ t := lookup_mem t _ _ hcomp
  have hnd := transform_keys_nodup adData t htr
  unfold upsertAd upsertAdWith
  rw [hval]
  rw [if_neg (by simp : ¬ (true = false))]
  rw [htr]
  dsimp only
  cases hfind : findAd db ((List.lookup "ad_id" t).getD Value.none) with
  | some r =>
    dsimp only
    have hscr : scalarish (getField r "company_id") = true :=
      hscal r (findAd_mem db _ r hfind)
    have hfld : getField (applyFields r t).1 "company_id" = Value.int n :=
      applyFields_field_scalar t r "company_id" (Value.int n) hnd hmemc
        (by decide) hscr
    cases happ : applyFields r t with
    | mk r' needs =>
      dsimp only
      cases needs with
      | false =>
        rw [if_neg (by simp : ¬ (false = true))]
        refine ⟨r, hfind, ?_⟩
        have hfix : r' = r := by
          have := applyFields_snd_false t r (by rw [happ])
          rw [happ] at this
          exact this
        rw [happ] at hfld
        dsimp only at hfld
        rw [hfix] at hfld
        exact hfld
      | true =>
        rw [if_pos rfl]
        rw [if_neg (by simp : ¬ (false = true))]
        refine ⟨{ r' with updatedAt := now }, ?_, ?_⟩
        · apply replaceFirst_find db _ _ r hfind
          show getField r' "ad_id" = _
          have hr' : r' = (applyFields r t).1 := by rw [happ]
          rw [hr', applyFields_adid t r]
          exact findAd_adid db _ r hfind
        · show getField r' "company_id" = Value.int n
          have hr' : r' = (applyFields r t).1 := by rw [happ]
          rw [hr']
          exact hfld
  | none =>
    dsimp only
    refine ⟨⟨t, now, now⟩, ?_, ?_⟩
    · apply findAd_append_right db _ _ hfind
      rfl
    · show (List.lookup "company_id" t).getD Value.none = Value.int n
      rw [hcomp]
      rfl

theorem extract_company (cid : String) (n : Int) (p : PageContent) (d : AdData)
    (hn : pyInt? cid = some n) (h : extractPageContent cid p = some d) :
    List.lookup "company_id" d = some (Value.int n) := by
  unfold extractPageContent at h
  cases hid : p.adIdMatch with
  | none => rw [hid] at h; simp at h
  | some adId =>
    rw [hid] at h
    dsimp only at h
    rw [hn] at h
    simp only [Option.some.injEq] at h
    rw [← h]
    exact lookup_setPair_self _ _ _

/-- C1: for every crawl with input parameter `company_id` and every ad
page content, the record produced by `_extract_page_content` carries
`company_id = int(company_id)` — any company identifier parsed out of
the page (`companyMatch`) is discarded by the unconditional overwrite
at crawler.py line 492 — and the row `upsert_ad` persists for that
record carries the same value.  The hypotheses only state that the
extraction and transform succeeded (their failures persist nothing)
and that existing `company_id` columns hold scalar values, as the
integer column of models.py does. -/
theorem c1_company_id_overwritten (cid : String) (n : Int) (p : PageContent)
    (d t : AdData) (db : DB) (now : Nat)
    (hn : pyInt? cid = some n)
    (hex : extractPageContent cid p = some d)
    (hadid : truthy (lookupData d "ad_id") = true)
    (htr : transformAdData d = some t)
    (hscal : ∀ r ∈ db, scalarish (getField r "company_id") = true) :
    lookupData d "company_id" = Value.int n ∧
    ∃ row,
      findAd (upsertAd db d now).db
        ((List.lookup "ad_id" t).getD Value.none) = some row ∧
      getField row "company_id" = Value.int n := by
  have hlc : List.lookup "company_id" d = some (Value.int n) :=
    extract_company cid n p d hn hex
  constructor
  · unfold lookupData
    rw [hlc]
    rfl
  · apply upsert_company_persisted db d t now n hadid htr ?_ hscal
    rw [transform_lookup_company d t htr, hlc]
    rfl

/-- Concrete ad page used by several witnesses: the canonical link
carries ad id 7 and nothing else is present on the page. -/
def pageW : PageContent :=
  ⟨some "7", Option.none, Option.none, [], Option.none, Option.none,
   Option.none, false, Option.none, Option.none, Option.none, Option.none,
   Option.none⟩

/-- The `ad_data` dict extracted from `pageW` by a crawl for company 123. -/
def dW : AdData :=
  [("ad_id", Value.str "7"),
   ("campaign_impressions_by_country", Value.impressions []),
   ("ad_type", Value.str "company_ad"),
   ("description", Value.none),
   ("company_id", Value.int 123)]

/-- `transformAdData dW`. -/
def tW : AdData :=
  [("ad_id", Value.str "7"),
   ("description", Value.none),
   ("company_id", Value.int 123),
   ("ad_type", Value.str "company_ad"),
   ("campaign_impressions_by_country", Value.impressions [])]

theorem c1_company_id_overwritten_witness :
    pyInt? "123" = some 123 ∧
    extractPageContent "123" pageW = some dW ∧
    truthy (lookupData dW "ad_id") = true ∧
    transformAdData dW = some tW ∧
    lookupData dW "company_id" = Value.int 123 :=
  ⟨by decide, by decide, by decide, by decide,
   (c1_company_id_overwritten "123" 123 pageW dW tW [] 5 (by decide) (by decide)
     (by decide) (by decide) (by intro r hr; simp at hr)).1⟩

/-- C2: when no stable ad identifier is found on the page
(`adIdMatch = none`, crawler.py 412-415) the extractor returns `None`
rather than a constructed record or an exception; `upsert_ad` raises
`ValueError` on a record whose `ad_id` is missing or falsy, leaving
the table untouched (crawler.py 552-554); consequently every row of a
table whose rows all carry a truthy `ad_id` still carries a truthy
`ad_id` after any reconciliation — no row is ever persisted without
an `ad_id`. -/
theorem c2_no_ad_id_no_record :
    (∀ (cid : String) (p : PageContent), p.adIdMatch = Option.none →
      extractPageContent cid p = Option.none) ∧
    (∀ (fail : Value → Bool) (db : DB) (adData : AdData) (now : Nat),
      truthy (lookupData adData "ad_id") = false →
      upsertAdWith fail db adData now = ⟨UpsertOutcome.error, db, 0⟩) ∧
    (∀ (fail : Value → Bool) (db : DB) (adData : AdData) (now : Nat),
      (∀ r ∈ db, truthy (getField r "ad_id") = true) →
      ∀ x ∈ (upsertAdWith fail db adData now).db,
        truthy (getField x "ad_id") = true) := by
  refine ⟨?_, ?_, ?_⟩
  · intro cid p hid
    unfold extractPageContent
    rw [hid]
  · intro fail db adData now hval
    unfold upsertAdWith
    rw [if_pos hval]
  · intro fail db adData now hdb
    exact upsert_adid_invariant fail db adData now hdb

/-- An ad page without a canonical ad id link. -/
def pageNoId : PageContent :=
  ⟨Option.none, Option.none, some "1K", [("US", "50%")], Option.none,
   some "Acme", Option.none, false, Option.none, some "Buy", Option.none,
   Option.none, some "999"⟩

theorem c2_no_ad_id_no_record_witness :
    extractPageContent "123" pageNoId = Option.none ∧
    upsertAdWith (fun _ => false) [] [("headline", Value.str "x")] 0 =
      ⟨UpsertOutcome.error, [], 0⟩ :=
  ⟨c2_no_ad_id_no_record.1 "123" pageNoId rfl,
   c2_no_ad_id_no_record.2.1 (fun _ => false) [] [("headline", Value.str "x")] 0
     (by decide)⟩

/-- C3: reconciliation is idempotent.  For a record already persisted,
reconciling an extracted record all of whose transformed fields agree
with the stored row yields outcome `existing` (the spec's `unchanged`)
with zero commits and an unchanged table — at both the first and any
second reconciliation, at any transaction times — so the persisted
`updated_at` is untouched. -/
theorem c3_reconcile_idempotent (db : DB) (adData t : AdData) (r : StoredAd)
    (now1 now2 : Nat)
    (hval : truthy (lookupData adData "ad_id") = true)
    (htr : transformAdData adData = some t)
    (hfind : findAd db ((List.lookup "ad_id" t).getD Value.none) = some r)
    (hsame : ∀ p ∈ t, p.1 = "ad_id" ∨ getField r p.1 = p.2) :
    upsertAd db adData now1 = ⟨UpsertOutcome.existing, db, 0⟩ ∧
    upsertAd db adData now2 = ⟨UpsertOutcome.existing, db, 0⟩ :=
  ⟨upsert_existing_of_same db adData t r now1 hval htr hfind hsame,
   upsert_existing_of_same db adData t r now2 hval htr hfind hsame⟩

/-- The stored row matching `adW3`. -/
def rW3 : StoredAd := ⟨[("ad_id", Value.str "9"), ("headline", Value.str "h")], 0, 0⟩

/-- An extracted record identical to the stored row `rW3`. -/
def adW3 : AdData := [("ad_id", Value.str "9"), ("headline", Value.str "h")]

theorem c3_reconcile_idempotent_witness :
    truthy (lookupData adW3 "ad_id") = true ∧
    transformAdData adW3 = some adW3 ∧
    findAd [rW3] (Value.str "9") = some rW3 ∧
    upsertAd [rW3] adW3 1 = ⟨UpsertOutcome.existing, [rW3], 0⟩ ∧
    upsertAd [rW3] adW3 2 = ⟨UpsertOutcome.existing, [rW3], 0⟩ := by
  have h := c3_reconcile_idempotent [rW3] adW3 adW3 rW3 1 2 (by decide) (by decide)
    (by decide) (by decide)
  exact ⟨by decide, by decide, by decide, h.1, h.2⟩

/-- The persisted row of the C4 counterexample: ad 1 with a non-empty
country-impressions breakdown. -/
def rC4 : StoredAd :=
  ⟨[("ad_id", Value.str "1"),
    ("campaign_impressions_by_country", Value.impressions [("US", "50%")])], 0, 0⟩

/-- The table holding only `rC4`. -/
def dbC4 : DB := [rC4]

/-- An extracted record that differs from `rC4` in exactly one
non-identifier field: its country-impressions list is empty. -/
def adC4 : AdData :=
  [("ad_id", Value.str "1"),
   ("campaign_impressions_by_country", Value.impressions [])]

/-- C4 counterexample: `adC4` differs from the persisted `rC4` in
exactly one non-identifier field (the country-impressions list), yet
reconciliation produces `existing` with zero writes and an unchanged
table — the differing field is not written and `updated_at` is not
bumped — because the composite-field comparison at crawler.py line 581
requires the *new* value to be truthy (`if new_value and ...`) and the
empty list is falsy.  This refutes the claim that reconciliation
writes the new value of every single differing field and bumps
`updated_at`. -/
theorem c4_one_field_counterexample :
    lookupData adC4 "campaign_impressions_by_country" ≠
      getField rC4 "campaign_impressions_by_country" ∧
    lookupData adC4 "ad_id" = getField rC4 "ad_id" ∧
    upsertAd dbC4 adC4 9 = ⟨UpsertOutcome.existing, dbC4, 0⟩ := by
  refine ⟨by decide, by decide, by decide⟩

/-- C4 (amended): for a persisted record and an extracted record
differing in exactly one non-identifier field, *provided that field
passes the update guard of crawler.py 575-586* — always true for
scalar columns, and true for date / composite columns exactly when
the new value is truthy — reconciliation writes the new value of that
field, bumps `updated_at` to the transaction time, and leaves every
other persisted field byte-identical (and `created_at` unchanged);
the outcome is `updated` with exactly one commit.  When the sole
difference is an empty/absent new value for a date or composite
column, no write occurs (see the counterexample). -/
theorem c4_single_field_update (db : DB) (adData t : AdData) (r : StoredAd)
    (now : Nat) (f : String) (v : Value)
    (hval : truthy (lookupData adData "ad_id") = true)
    (htr : transformAdData adData = some t)
    (hfind : findAd db ((List.lookup "ad_id" t).getD Value.none) = some r)
    (hmem : (f, v) ∈ t) (hfid : f ≠ "ad_id")
    (hguard : fieldUpdateGuard (getField r f) v = true)
    (hothers : ∀ p ∈ t, p.1 ≠ f → p.1 = "ad_id" ∨ getField r p.1 = p.2) :
    upsertAd db adData now =
      ⟨UpsertOutcome.updated,
       replaceFirst db ((List.lookup "ad_id" t).getD Value.none)
         ⟨setPair r.fields f v, r.createdAt, now⟩, 1⟩ ∧
    getField (⟨setPair r.fields f v, r.createdAt, now⟩ : StoredAd) f = v ∧
    (⟨setPair r.fields f v, r.createdAt, now⟩ : StoredAd).updatedAt = now ∧
    (⟨setPair r.fields f v, r.createdAt, now⟩ : StoredAd).createdAt = r.createdAt ∧
    (∀ g, g ≠ f →
      getField (⟨setPair r.fields f v, r.createdAt, now⟩ : StoredAd) g =
        getField r g) ∧
    findAd
      (replaceFirst db ((List.lookup "ad_id" t).getD Value.none)
        ⟨setPair r.fields f v, r.createdAt, now⟩)
      ((List.lookup "ad_id" t).getD Value.none) =
      some ⟨setPair r.fields f v, r.createdAt, now⟩ := by
  have hrowid :
      getField (⟨setPair r.fields f v, r.createdAt, now⟩ : StoredAd) "ad_id" =
        (List.lookup "ad_id" t).getD Value.none := by
    show (List.lookup "ad_id" (setPair r.fields f v)).getD Value.none = _
    rw [lookup_setPair_ne r.fields f "ad_id" v (Ne.symm hfid)]
    exact findAd_adid db _ r hfind
  refine ⟨upsert_updated_single db adData t r now f v hval htr hfind hmem hfid
      hguard hothers, ?_, rfl, rfl, ?_, ?_⟩
  · show (List.lookup f (setPair r.fields f v)).getD Value.none = v
    rw [lookup_setPair_self]
    rfl
  · intro g hg
    show (List.lookup g (setPair r.fields f v)).getD Value.none = getField r g
    rw [lookup_setPair_ne r.fields f g v hg]
    rfl
  · exact replaceFirst_find db _ _ r hfind hrowid

/-- Stored row for the C4 amended witness. -/
def rW4 : StoredAd :=
  ⟨[("ad_id", Value.str "9"), ("headline", Value.str "old")], 3, 3⟩

/-- Extracted record for the C4 amended witness: only `headline`
differs from `rW4`. -/
def adW4 : AdData := [("ad_id", Value.str "9"), ("headline", Value.str "new")]

theorem c4_single_field_update_witness :
    truthy (lookupData adW4 "ad_id") = true ∧
    transformAdData adW4 = some adW4 ∧
    findAd [rW4] (Value.str "9") = some rW4 ∧
    ("headline", Value.str "new") ∈ adW4 ∧
    fieldUpdateGuard (getField rW4 "headline") (Value.str "new") = true ∧
    upsertAd [rW4] adW4 7 =
      ⟨UpsertOutcome.updated,
       replaceFirst [rW4] (Value.str "9")
         ⟨setPair rW4.fields "headline" (Value.str "new"), 3, 7⟩, 1⟩ := by
  have h := c4_single_field_update [rW4] adW4 adW4 rW4 7 "headline"
    (Value.str "new") (by decide) (by decide) (by decide) (by decide)
    (by decide) (by decide) (by decide)
  exact ⟨by decide, by decide, by decide, by decide, by decide, h.1⟩

theorem iterOnce_scrollCount (env : DiscoveryEnv) (st : LoopState) :
    (iterOnce env st).scrollCount = st.scrollCount + 1 := by
  unfold iterOnce
  by_cases h : (env.steps st.scrollCount).scrollError = true
  · rw [if_pos h]
  · rw [if_neg h]

theorem finalPass_scrollCount (env : DiscoveryEnv) (st : LoopState) :
    (finalPass env st).scrollCount = st.scrollCount := by
  unfold finalPass
  by_cases h : env.finalError = true
  · rw [if_pos h]
  · rw [if_neg h]

theorem collectLoopF_scrollCount_le (env : DiscoveryEnv) :
    ∀ fuel st, st.scrollCount ≤ 50 →
      (collectLoopF env fuel st).scrollCount ≤ 51 := by
  intro fuel
  induction fuel with
  | zero => intro st h; simpa [collectLoopF] using Nat.le_succ_of_le h
  | succ f ih =>
    intro st h
    have hsc : (iterOnce env st).scrollCount = st.scrollCount + 1 :=
      iterOnce_scrollCount env st
    unfold collectLoopF
    by_cases hc1 : 5 ≤ (iterOnce env st).consecUnchanged ∧
        3 ≤ (iterOnce env st).scrollCount
    · rw [if_pos hc1, finalPass_scrollCount]
      omega
    · rw [if_neg hc1]
      by_cases hc2 : 50 < (iterOnce env st).scrollCount
      · rw [if_pos hc2]
        omega
      · rw [if_neg hc2]
        exact ih (iterOnce env st) (by omega)

theorem collectLoopF_fuelIrrel (env : DiscoveryEnv) :
    ∀ fuel1 fuel2 st, st.scrollCount ≤ 50 →
      51 ≤ st.scrollCount + fuel1 → 51 ≤ st.scrollCount + fuel2 →
      collectLoopF env fuel1 st = collectLoopF env fuel2 st := by
  intro fuel1
  induction fuel1 with
  | zero => intro fuel2 st h50 h1 h2; omega
  | succ f ih =>
    intro fuel2 st h50 h1 h2
    cases fuel2 with
    | zero => omega
    | succ f2 =>
      have hsc : (iterOnce env st).scrollCount = st.scrollCount + 1 :=
        iterOnce_scrollCount env st
      unfold collectLoopF
      by_cases hc1 : 5 ≤ (iterOnce env st).consecUnchanged ∧
          3 ≤ (iterOnce env st).scrollCount
      · rw [if_pos hc1, if_pos hc1]
      · rw [if_neg hc1, if_neg hc1]
        by_cases hc2 : 50 < (iterOnce env st).scrollCount
        · rw [if_pos hc2, if_pos hc2]
        · rw [if_neg hc2, if_neg hc2]
          exact ih f2 (iterOnce env st) (by omega) (by omega) (by omega)

/-- One insertion step of the frontier merge. -/
def addStep (acc : List String) (link : String) : List String :=
  if stripQuery link ∈ acc then acc else acc ++ [stripQuery link]

theorem addLinks_eq_foldl (d links : List String) :
    addLinks d links = links.foldl addStep d := by
  rfl

theorem addStep_subset (d : List String) (x link : String) (h : x ∈ d) :
    x ∈ addStep d link := by
  unfold addStep
  by_cases hm : stripQuery link ∈ d
  · rw [if_pos hm]; exact h
  · rw [if_neg hm]; exact List.mem_append_left _ h

theorem addStep_mem (d : List String) (link : String) :
    stripQuery link ∈ addStep d link := by
  unfold addStep
  by_cases hm : stripQuery link ∈ d
  · rw [if_pos hm]; exact hm
  · rw [if_neg hm]; exact List.mem_append_right _ (List.mem_singleton_self _)

theorem addStep_nodup (d : List String) (link : String) (h : d.Nodup) :
    (addStep d link).Nodup := by
  unfold addStep
  by_cases hm : stripQuery link ∈ d
  · rw [if_pos hm]; exact h
  · rw [if_neg hm]
    refine List.nodup_append.mpr ⟨h, List.nodup_singleton _, ?_⟩
    intro x hx hxs
    have : x = stripQuery link := List.mem_singleton.mp hxs
    subst this
    exact hm hx

theorem addLinks_subset (links : List String) :
    ∀ d x, x ∈ d → x ∈ addLinks d links := by
  induction links with
  | nil => intro d x h; exact h
  | cons l rest ih =>
    intro d x h
    show x ∈ addLinks (addStep d l) rest
    exact ih (addStep d l) x (addStep_subset d x l h)

theorem addLinks_mem (links : List String) :
    ∀ d l, l ∈ links → stripQuery l ∈ addLinks d links := by
  induction links with
  | nil => intro d l h; simp at h
  | cons a rest ih =>
    intro d l h
    rcases List.mem_cons.mp h with h1 | h1
    · subst h1
      show stripQuery l ∈ addLinks (addStep d l) rest
      exact addLinks_subset rest (addStep d l) _ (addStep_mem d l)
    · show stripQuery l ∈ addLinks (addStep d a) rest
      exact ih (addStep d a) l h1

theorem addLinks_nodup (links : List String) :
    ∀ d, d.Nodup → (addLinks d links).Nodup := by
  induction links with
  | nil => intro d h; exact h
  | cons a rest ih =>
    intro d h
    show (addLinks (addStep d a) rest).Nodup
    exact ih (addStep d a) (addStep_nodup d a h)

theorem iterOnce_detail_subset (env : DiscoveryEnv) (st : LoopState)
    (x : String) (h : x ∈ st.detailUrls) : x ∈ (iterOnce env st).detailUrls := by
  unfold iterOnce
  by_cases he : (env.steps st.scrollCount).scrollError = true
  · rw [if_pos he]; exact h
  · rw [if_neg he]
    exact addLinks_subset _ _ _ h

theorem iterOnce_detail_nodup (env : DiscoveryEnv) (st : LoopState)
    (h : st.detailUrls.Nodup) : (iterOnce env st).detailUrls.Nodup := by
  unfold iterOnce
  by_cases he : (env.steps st.scrollCount).scrollError = true
  · rw [if_pos he]; exact h
  · rw [if_neg he]
    exact addLinks_nodup _ _ h

theorem finalPass_detail_subset (env : DiscoveryEnv) (st : LoopState)
    (x : String) (h : x ∈ st.detailUrls) : x ∈ (finalPass env st).detailUrls := by
  unfold finalPass
  by_cases he : env.finalError = true
  · rw [if_pos he]; exact h
  · rw [if_neg he]
    exact addLinks_subset _ _ _ h

theorem finalPass_detail_nodup (env : DiscoveryEnv) (st : LoopState)
    (h : st.detailUrls.Nodup) : (finalPass env st).detailUrls.Nodup := by
  unfold finalPass
  by_cases he : env.finalError = true
  · rw [if_pos he]; exact h
  · rw [if_neg he]
    exact addLinks_nodup _ _ h

theorem collectLoopF_detail_subset (env : DiscoveryEnv) :
    ∀ fuel st x, x ∈ st.detailUrls →
      x ∈ (collectLoopF env fuel st).detailUrls := by
  intro fuel
  induction fuel with
  | zero => intro st x h; exact h
  | succ f ih =>
    intro st x h
    have h1 : x ∈ (iterOnce env st).detailUrls := iterOnce_detail_subset env st x h
    unfold collectLoopF
    by_cases hc1 : 5 ≤ (iterOnce env st).consecUnchanged ∧
        3 ≤ (iterOnce env st).scrollCount
    · rw [if_pos hc1]
      exact finalPass_detail_subset env _ x h1
    · rw [if_neg hc1]
      by_cases hc2 : 50 < (iterOnce env st).scrollCount
      · rw [if_pos hc2]; exact h1
      · rw [if_neg hc2]
        exact ih (iterOnce env st) x h1

theorem collectLoopF_detail_nodup (env : DiscoveryEnv) :
    ∀ fuel st, st.detailUrls.Nodup →
      (collectLoopF env fuel st).detailUrls.Nodup := by
  intro fuel
  induction fuel with
  | zero => intro st h; exact h
  | succ f ih =>
    intro st h
    have h1 := iterOnce_detail_nodup env st h
    unfold collectLoopF
    by_cases hc1 : 5 ≤ (iterOnce env st).consecUnchanged ∧
        3 ≤ (iterOnce env st).scrollCount
    · rw [if_pos hc1]
      exact finalPass_detail_nodup env _ h1
    · rw [if_neg hc1]
      by_cases hc2 : 50 < (iterOnce env st).scrollCount
      · rw [if_pos hc2]; exact h1
      · rw [if_neg hc2]
        exact ih (iterOnce env st) h1

theorem collectLoopF_succ_mem (env : DiscoveryEnv) (f : Nat) (st : LoopState)
    (l : String)
    (herr : (env.steps st.scrollCount).scrollError = false)
    (hl : l ∈ (env.steps st.scrollCount).links) :
    stripQuery l ∈ (collectLoopF env (f + 1) st).detailUrls := by
  have h1 : stripQuery l ∈ (iterOnce env st).detailUrls := by
    unfold iterOnce
    rw [if_neg (by rw [herr]; exact Bool.false_ne_true)]
    exact addLinks_mem _ _ _ hl
  unfold collectLoopF
  by_cases hc1 : 5 ≤ (iterOnce env st).consecUnchanged ∧
      3 ≤ (iterOnce env st).scrollCount
  · rw [if_pos hc1]
    exact finalPass_detail_subset env _ _ h1
  · rw [if_neg hc1]
    by_cases hc2 : 50 < (iterOnce env st).scrollCount
    · rw [if_pos hc2]; exact h1
    · rw [if_neg hc2]
      exact collectLoopF_detail_subset env f _ _ h1

/-- The pacing invariant of the scroll loop: one sleep is logged per
iteration, and the sleep of iteration `i` lasts
`base_wait_time + i * increment` seconds (crawler.py line 123). -/
def waitOk (st : LoopState) : Prop :=
  st.waitLog.length = st.scrollCount ∧
  ∀ i p, st.waitLog.get? i = some p → p.1 = baseWaitTime + i * increment

theorem append_entry_waitOk (log : List (Nat × Nat)) (sc : Nat) (c : Nat)
    (hlen : log.length = sc)
    (hold : ∀ i p, log.get? i = some p → p.1 = baseWaitTime + i * increment) :
    ∀ i p, (log ++ [(baseWaitTime + sc * increment, c)]).get? i = some p →
      p.1 = baseWaitTime + i * increment := by
  intro i p hp
  by_cases hi : i < log.length
  · rw [List.get?_append hi] at hp
    exact hold i p hp
  · rw [List.get?_append_right (Nat.le_of_not_lt hi)] at hp
    cases hsub : i - log.length with
    | zero =>
      rw [hsub] at hp
      simp only [List.get?] at hp
      have hi' : i = sc := by omega
      subst hi'
      have : p = (baseWaitTime + i * increment, c) := by
        simpa using hp.symm
      rw [this]
    | succ m =>
      rw [hsub] at hp
      simp [List.get?] at hp

theorem iterOnce_waitOk (env : DiscoveryEnv) (st : LoopState)
    (h : waitOk st) : waitOk (iterOnce env st) := by
  obtain ⟨hlen, hold⟩ := h
  unfold iterOnce
  by_cases he : (env.steps st.scrollCount).scrollError = true
  · rw [if_pos he]
    refine ⟨by simp [hlen], ?_⟩
    exact append_entry_waitOk st.waitLog st.scrollCount _ hlen hold
  · rw [if_neg he]
    refine ⟨by simp [hlen], ?_⟩
    exact append_entry_waitOk st.waitLog st.scrollCount _ hlen hold

theorem finalPass_waitOk (env : DiscoveryEnv) (st : LoopState)
    (h : waitOk st) : waitOk (finalPass env st) := by
  unfold finalPass
  by_cases he : env.finalError = true
  · rw [if_pos he]; exact h
  · rw [if_neg he]; exact h

theorem collectLoopF_waitOk (env : DiscoveryEnv) :
    ∀ fuel st, waitOk st → waitOk (collectLoopF env fuel st) := by
  intro fuel
  induction fuel with
  | zero => intro st h; exact h
  | succ f ih =>
    intro st h
    have h1 := iterOnce_waitOk env st h
    unfold collectLoopF
    by_cases hc1 : 5 ≤ (iterOnce env st).consecUnchanged ∧
        3 ≤ (iterOnce env st).scrollCount
    · rw [if_pos hc1]
      exact finalPass_waitOk env _ h1
    · rw [if_neg hc1]
      by_cases hc2 : 50 < (iterOnce env st).scrollCount
      · rw [if_pos hc2]; exact h1
      · rw [if_neg hc2]
        exact ih (iterOnce env st) h1

/-- C5: the frontier is a set keyed by the query-string-stripped URL.
For every discovery run the final `detail_urls` is duplicate-free, and
every link observed by a processed iteration (here: the first
iteration, which always runs) contributes its normalized URL exactly
once to the final frontier — links differing only by query string
collapse to one entry. -/
theorem c5_frontier_dedup :
    (∀ env : DiscoveryEnv, ((collectAdUrls env).detailUrls).Nodup) ∧
    (∀ (env : DiscoveryEnv) (l : String), env.navFailed = false →
      (env.steps 0).scrollError = false → l ∈ (env.steps 0).links →
      ((collectAdUrls env).detailUrls).count (stripQuery l) = 1) := by
  have hnodup : ∀ env : DiscoveryEnv, ((collectAdUrls env).detailUrls).Nodup := by
    intro env
    unfold collectAdUrls
    by_cases hn : env.navFailed = true
    · rw [if_pos hn]
      exact List.nodup_nil
    · rw [if_neg hn]
      exact collectLoopF_detail_nodup env 51 initState List.nodup_nil
  refine ⟨hnodup, ?_⟩
  intro env l hn herr hl
  have hmem : stripQuery l ∈ (collectAdUrls env).detailUrls := by
    unfold collectAdUrls
    rw [if_neg (by rw [hn]; exact Bool.false_ne_true)]
    exact collectLoopF_succ_mem env 50 initState l herr hl
  exact List.count_eq_one_of_mem (hnodup env) hmem

/-- Discovery environment witnessing C5: the first iteration renders
two links that differ only by query string plus a third distinct one;
later iterations render nothing. -/
def envW5 : DiscoveryEnv :=
  ⟨false,
   fun i => if i = 0 then
     ⟨1, false,
      ["http://x/ad-library/detail/1?q=a", "http://x/ad-library/detail/1?b",
       "http://x/ad-library/detail/2"]⟩
   else ⟨1, false, []⟩,
   [], false⟩

theorem c5_frontier_dedup_witness :
    envW5.navFailed = false ∧
    (envW5.steps 0).scrollError = false ∧
    "http://x/ad-library/detail/1?q=a" ∈ (envW5.steps 0).links ∧
    ((collectAdUrls envW5).detailUrls).count
      (stripQuery "http://x/ad-library/detail/1?q=a") = 1 :=
  ⟨rfl, rfl, by decide,
   c5_frontier_dedup.2 envW5 "http://x/ad-library/detail/1?q=a" rfl rfl
     (by decide)⟩

/-- C6: discovery terminates on every input within the hard iteration
ceiling.  The loop's result is independent of any fuel of at least 51
(it always exits through its own conditions, never by fuel
exhaustion), and the number of iterations performed — `scroll_count`
at exit — never exceeds 51, well under the claimed ceiling of 100. -/
theorem c6_discovery_terminates (env : DiscoveryEnv) (fuel : Nat)
    (hfuel : 51 ≤ fuel) :
    collectLoopF env fuel initState = collectLoopF env 51 initState ∧
    (collectAdUrls env).scrollCount ≤ 51 ∧
    (collectAdUrls env).scrollCount ≤ 100 := by
  have hb : (collectAdUrls env).scrollCount ≤ 51 := by
    unfold collectAdUrls
    by_cases hn : env.navFailed = true
    · rw [if_pos hn]
      exact Nat.le_of_lt (by decide)
    · rw [if_neg hn]
      exact collectLoopF_scrollCount_le env 51 initState (by decide)
  refine ⟨?_, hb, Nat.le_trans hb (by decide)⟩
  exact collectLoopF_fuelIrrel env fuel 51 initState (by decide)
    (by show 51 ≤ 0 + fuel; omega) (by decide)

/-- Discovery environment witnessing C6: a page whose height never
changes, so discovery exits through the unchanged-counter condition. -/
def envW6 : DiscoveryEnv :=
  ⟨false, fun _ => ⟨0, false, []⟩, [], false⟩

theorem c6_discovery_terminates_witness :
    51 ≤ 60 ∧
    collectLoopF envW6 60 initState = collectLoopF envW6 51 initState ∧
    (collectAdUrls envW6).scrollCount ≤ 100 :=
  ⟨by decide, (c6_discovery_terminates envW6 60 (by decide)).1,
   (c6_discovery_terminates envW6 60 (by decide)).2.2⟩

/-- Discovery environment refuting the claimed pacing formula: the
page height strictly increases forever, so the consecutive-unchanged
counter is 0 at every iteration. -/
def envW8 : DiscoveryEnv :=
  ⟨false, fun i => ⟨i + 1, false, []⟩, [], false⟩

/-- C8 counterexample: at the second iteration of `envW8` the loop
sleeps 3 seconds while the consecutive-unchanged counter is 0 (the
logged pair is `(3, 0)`).  The claimed formula
`base + increment * consecutive-unchanged-count` would give
`2 + 1 * 0 = 2` seconds: the wait in crawler.py line 123 is
`base_wait_time + scroll_count * increment`, driven by the iteration
index, not by the consecutive-unchanged count, and it never resets
when new content appears. -/
theorem c8_pacing_counterexample :
    (collectAdUrls envW8).waitLog.get? 1 = some (3, 0) ∧
    ¬ (3 = baseWaitTime + 0 * increment) := by
  exact ⟨by decide, by decide⟩

/-- C8 (amended): the pacing wait of iteration `i` equals
`base_wait_time + i * increment` — it grows with the iteration index
`scroll_count`, independently of how many consecutive iterations
produced no new links, and never resets. -/
theorem c8_pacing_formula (env : DiscoveryEnv) :
    ∀ i p, (collectAdUrls env).waitLog.get? i = some p →
      p.1 = baseWaitTime + i * increment := by
  have h : waitOk (collectAdUrls env) := by
    unfold collectAdUrls
    by_cases hn : env.navFailed = true
    · rw [if_pos hn]
      exact ⟨rfl, by intro i p hp; simp [initState] at hp⟩
    · rw [if_neg hn]
      exact collectLoopF_waitOk env 51 initState
        ⟨rfl, by intro i p hp; simp [initState] at hp⟩
  exact h.2

theorem c8_pacing_formula_witness :
    (collectAdUrls envW8).waitLog.get? 2 = some (4, 0) ∧
    (4 : Nat) = baseWaitTime + 2 * increment :=
  ⟨by decide, c8_pacing_formula envW8 2 (4, 0) (by decide)⟩

/-- Whether a navigation attempt came back with HTTP status 429. -/
def is429 : AttemptOutcome → Bool
  | AttemptOutcome.status c _ => decide (c = 429)
  | AttemptOutcome.exn _ => false

/-- Attempt environment for the C7 counterexample: the first
`RETRY_COUNT` attempts are throttled with status 429; any further
attempt would load `pageW` perfectly with status 200. -/
def envW7 : Nat → AttemptOutcome :=
  fun i => if i < RETRY_COUNT then AttemptOutcome.status 429 pageW
           else AttemptOutcome.status 200 pageW

/-- The same page without any throttling. -/
def envW7ok : Nat → AttemptOutcome :=
  fun _ => AttemptOutcome.status 200 pageW

/-- An endless run of 429 responses. -/
def envW7all : Nat → AttemptOutcome :=
  fun _ => AttemptOutcome.status 429 pageW

/-- C7 counterexample: five consecutive 429 responses exhaust the
whole `RETRY_COUNT = 5` budget — the `continue` at crawler.py line 333
advances the `for attempt in range(RETRY_COUNT)` loop, so each 429
*does* consume a retry slot.  With `envW7` the sixth attempt would
succeed on a perfectly good page (as `envW7ok` shows), but the
extractor returns `None` instead of reaching it; under the claim
("a run of 429s never reduces the remaining retry attempts") the run
would have returned the extracted record. -/
theorem c7_rate_limit_counterexample :
    extractAdDetails "123" envW7 = ExtractResult.noneResult ∧
    extractAdDetails "123" envW7ok = ExtractResult.ok dW := by
  exact ⟨by decide, by decide⟩

/-- C7 (amended): an HTTP 429 response sleeps through the 30-second
cooldown and then proceeds to the *next* attempt of the retry loop,
consuming one of the `RETRY_COUNT` slots; consequently a run of
uninterrupted 429 responses exhausts the budget and the extractor
returns `None`. -/
theorem c7_rate_limit_consumes_budget :
    (∀ (cid : String) (env : Nat → AttemptOutcome) (attempt fuel : Nat)
       (page : PageContent),
      env attempt = AttemptOutcome.status 429 page →
      extractLoop cid env attempt (fuel + 1) =
        extractLoop cid env (attempt + 1) fuel) ∧
    (∀ (cid : String) (env : Nat → AttemptOutcome),
      (∀ i, is429 (env i) = true) →
      extractAdDetails cid env = ExtractResult.noneResult) := by
  constructor
  · intro cid env attempt fuel page h
    conv_lhs => unfold extractLoop
    rw [h]
    dsimp only
    rw [if_pos rfl]
  · intro cid env h429
    have haux : ∀ fuel attempt,
        extractLoop cid env attempt fuel = ExtractResult.noneResult := by
      intro fuel
      induction fuel with
      | zero => intro a; rfl
      | succ f ih =>
        intro a
        have h := h429 a
        cases he : env a with
        | status c p =>
          rw [he] at h
          have hc : c = 429 := by simpa [is429] using h
          subst hc
          unfold extractLoop
          rw [he]
          dsimp only
          rw [if_pos rfl]
          exact ih (a + 1)
        | exn t =>
          rw [he] at h
          simp [is429] at h
    exact haux RETRY_COUNT 0

theorem c7_rate_limit_consumes_budget_witness :
    envW7 0 = AttemptOutcome.status 429 pageW ∧
    extractLoop "123" envW7 0 5 = extractLoop "123" envW7 1 4 ∧
    extractAdDetails "123" envW7all = ExtractResult.noneResult :=
  ⟨rfl,
   c7_rate_limit_consumes_budget.1 "123" envW7 0 4 pageW rfl,
   c7_rate_limit_consumes_budget.2 "123" envW7all (fun _ => rfl)⟩

theorem chunkAux_join (size : Nat) (hsize : 1 ≤ size) :
    ∀ fuel l, l.length ≤ fuel → (chunkAux size fuel l).flatten = l := by
  intro fuel
  induction fuel with
  | zero =>
    intro l hl
    cases l with
    | nil => rfl
    | cons x xs => simp at hl
  | succ f ih =>
    intro l hl
    cases l with
    | nil => rfl
    | cons x xs =>
      show (List.take size (x :: xs) ::
        chunkAux size f (List.drop size (x :: xs))).flatten = x :: xs
      rw [List.flatten_cons]
      rw [ih (List.drop size (x :: xs))
        (by rw [List.length_drop]; simp only [List.length_cons] at hl ⊢; omega)]
      exact List.take_append_drop size (x :: xs)

theorem mem_chunkUrls (urls : List String) (u : String) (h : u ∈ urls) :
    ∃ chunk ∈ chunkUrls urls CHUNK_SIZE, u ∈ chunk := by
  have hj : (chunkUrls urls CHUNK_SIZE).flatten = urls := by
    unfold chunkUrls
    exact chunkAux_join CHUNK_SIZE (by decide) urls.length urls (Nat.le_refl _)
  rw [← hj] at h
  exact List.mem_flatten.mp h

theorem chunkAttempts_att_mono (fail : Value → Bool)
    (envE : String → ExtractResult) (chunk : List String) (now : Nat) :
    ∀ fuel counts db att x, x ∈ att →
      x ∈ (chunkAttempts fail envE chunk now fuel counts db att).attempted := by
  intro fuel
  induction fuel with
  | zero => intro counts db att x h; exact h
  | succ f ih =>
    intro counts db att x h
    show x ∈ (if ((chunk.map envE).filterMap fun r =>
        match r with
        | ExtractResult.ok d => some d
        | _ => Option.none).isEmpty then _ else _ : ChunkOut).attempted
    by_cases hemp : ((chunk.map envE).filterMap fun r =>
        match r with
        | ExtractResult.ok d => some d
        | _ => Option.none).isEmpty = true
    · rw [if_pos hemp]
      exact ih _ _ _ x (List.mem_append_left _ h)
    · rw [if_neg hemp]
      cases hu : upsertSeq fail now db ((chunk.map envE).filterMap fun r =>
          match r with
          | ExtractResult.ok d => some d
          | _ => Option.none) with
      | mk n rest1 =>
        obtain ⟨up, ex, db', raised⟩ := rest1
        dsimp only
        cases raised with
        | true =>
          rw [if_pos rfl]
          exact ih _ _ _ x (List.mem_append_left _ h)
        | false =>
          rw [if_neg (by simp : ¬ (false = true))]
          exact List.mem_append_left _ h

theorem chunkAttempts_chunk_mem (fail : Value → Bool)
    (envE : String → ExtractResult) (chunk : List String) (now : Nat)
    (fuel : Nat) (counts : Nat × Nat × Nat) (db : DB) (att : List String)
    (x : String) (h : x ∈ chunk) :
    x ∈ (chunkAttempts fail envE chunk now (fuel + 1) counts db att).attempted := by
  show x ∈ (if ((chunk.map envE).filterMap fun r =>
      match r with
      | ExtractResult.ok d => some d
      | _ => Option.none).isEmpty then _ else _ : ChunkOut).attempted
  by_cases hemp : ((chunk.map envE).filterMap fun r =>
      match r with
      | ExtractResult.ok d => some d
      | _ => Option.none).isEmpty = true
  · rw [if_pos hemp]
    exact chunkAttempts_att_mono fail envE chunk now fuel _ _ _ x
      (List.mem_append_right _ h)
  · rw [if_neg hemp]
    cases hu : upsertSeq fail now db ((chunk.map envE).filterMap fun r =>
        match r with
        | ExtractResult.ok d => some d
        | _ => Option.none) with
    | mk n rest1 =>
      obtain ⟨up, ex, db', raised⟩ := rest1
      dsimp only
      cases raised with
      | true =>
        rw [if_pos rfl]
        exact chunkAttempts_att_mono fail envE chunk now fuel _ _ _ x
          (List.mem_append_right _ h)
      | false =>
        rw [if_neg (by simp : ¬ (false = true))]
        exact List.mem_append_right _ h

theorem runStep_att_mono (fail : Value → Bool) (envE : String → ExtractResult)
    (now : Nat) (acc : RunOut) (chunk : List String) (x : String)
    (h : x ∈ acc.attempted) :
    x ∈ (runStep fail envE now acc chunk).attempted :=
  List.mem_append_left _ h

theorem runStep_chunk_mem (fail : Value → Bool) (envE : String → ExtractResult)
    (now : Nat) (acc : RunOut) (chunk : List String) (x : String)
    (h : x ∈ chunk) :
    x ∈ (runStep fail envE now acc chunk).attempted := by
  apply List.mem_append_right
  exact chunkAttempts_chunk_mem fail envE chunk now 2 _ _ _ x h

theorem foldl_att_mono (fail : Value → Bool) (envE : String → ExtractResult)
    (now : Nat) :
    ∀ (chunks : List (List String)) (acc : RunOut) (x : String),
      x ∈ acc.attempted →
      x ∈ (chunks.foldl (runStep fail envE now) acc).attempted := by
  intro chunks
  induction chunks with
  | nil => intro acc x h; exact h
  | cons c rest ih =>
    intro acc x h
    show x ∈ (rest.foldl (runStep fail envE now)
      (runStep fail envE now acc c)).attempted
    exact ih _ x (runStep_att_mono fail envE now acc c x h)

theorem foldl_chunk_mem (fail : Value → Bool) (envE : String → ExtractResult)
    (now : Nat) :
    ∀ (chunks : List (List String)) (acc : RunOut) (chunk : List String)
      (x : String), chunk ∈ chunks → x ∈ chunk →
      x ∈ (chunks.foldl (runStep fail envE now) acc).attempted := by
  intro chunks
  induction chunks with
  | nil => intro acc chunk x h; simp at h
  | cons c rest ih =>
    intro acc chunk x hc hx
    show x ∈ (rest.foldl (runStep fail envE now)
      (runStep fail envE now acc c)).attempted
    rcases List.mem_cons.mp hc with h1 | h1
    · subst h1
      exact foldl_att_mono fail envE now rest _ x
        (runStep_chunk_mem fail envE now acc chunk x hx)
    · exact ih _ chunk x h1 hx

theorem foldl_count_sum (fail : Value → Bool) (envE : String → ExtractResult)
    (now : Nat) :
    ∀ (chunks : List (List String)) (acc : RunOut),
      acc.processedCount = acc.newAds + acc.updatedAds + acc.existingAds →
      (chunks.foldl (runStep fail envE now) acc).processedCount =
        (chunks.foldl (runStep fail envE now) acc).newAds +
        (chunks.foldl (runStep fail envE now) acc).updatedAds +
        (chunks.foldl (runStep fail envE now) acc).existingAds := by
  intro chunks
  induction chunks with
  | nil => intro acc h; exact h
  | cons c rest ih =>
    intro acc h
    show (rest.foldl (runStep fail envE now)
      (runStep fail envE now acc c)).processedCount = _
    apply ih
    show acc.processedCount + _ + _ + _ = _
    unfold runStep
    dsimp only
    omega

/-- Extraction environment for the C9 counterexample: every URL fails
to extract. -/
def envW9 : String → ExtractResult :=
  fun _ => ExtractResult.noneResult

/-- Four-URL frontier for the C9 counterexample. -/
def urls9 : List String := ["u1", "u2", "u3", "u4"]

/-- C9 counterexample: with breaker threshold 3 (the unused
`max_consecutive_timeouts`) and every extraction failing, the first
three extraction attempts of the run are already three consecutive
failures, yet the run goes on to create extraction tasks for `u3` and
`u4` in the second chunk — twelve tasks in total, three full attempts
per chunk — because no code in `process_all_ads` or
`process_chunk_with_retry` ever consults a consecutive-failure
counter.  The claim's early termination after the third consecutive
failure does not happen. -/
theorem c9_no_circuit_breaker_counterexample :
    envW9 "u1" = ExtractResult.noneResult ∧
    envW9 "u2" = ExtractResult.noneResult ∧
    envW9 "u3" = ExtractResult.noneResult ∧
    maxConsecutiveTimeouts = 3 ∧
    (processAllAds (fun _ => false) envW9 urls9 [] 0).attempted =
      ["u1", "u2", "u1", "u2", "u1", "u2", "u3", "u4", "u3", "u4", "u3", "u4"] ∧
    (processAllAds (fun _ => false) envW9 urls9 [] 0).processedCount = 0 := by
  exact ⟨rfl, rfl, rfl, rfl, by decide, by decide⟩

/-- C9 (amended): `consecutive_timeouts` / `max_consecutive_timeouts`
are initialized in `__init__` (crawler.py 35-36) but never consulted:
the run processes every chunk of the frontier regardless of how many
consecutive extraction failures occur — every frontier URL gets an
extraction task — `processed_count` counts exactly the completed
(new/updated/existing) outcomes, and the run returns normally. -/
theorem c9_run_never_stops_early (fail : Value → Bool)
    (envE : String → ExtractResult) (urls : List String) (db : DB) (now : Nat) :
    (∀ u ∈ urls, u ∈ (processAllAds fail envE urls db now).attempted) ∧
    (processAllAds fail envE urls db now).processedCount =
      (processAllAds fail envE urls db now).newAds +
      (processAllAds fail envE urls db now).updatedAds +
      (processAllAds fail envE urls db now).existingAds := by
  unfold processAllAds
  by_cases hemp : urls.isEmpty = true
  · rw [if_pos hemp]
    constructor
    · intro u hu
      rw [List.isEmpty_iff] at hemp
      subst hemp
      simp at hu
    · rfl
  · rw [if_neg hemp]
    constructor
    · intro u hu
      obtain ⟨chunk, hc, hx⟩ := mem_chunkUrls urls u hu
      exact foldl_chunk_mem fail envE now (chunkUrls urls CHUNK_SIZE) _ chunk u
        hc hx
    · exact foldl_count_sum fail envE now (chunkUrls urls CHUNK_SIZE) _ rfl

theorem c9_run_never_stops_early_witness :
    "u3" ∈ urls9 ∧
    "u3" ∈ (processAllAds (fun _ => false) envW9 urls9 [] 0).attempted :=
  ⟨by decide,
   (c9_run_never_stops_early (fun _ => false) envW9 urls9 [] 0).1 "u3"
     (by decide)⟩

theorem upsert_error_rollback (fail : Value → Bool) (db : DB) (ad : AdData)
    (now : Nat) :
    (upsertAdWith fail db ad now).outcome = UpsertOutcome.error →
    upsertAdWith fail db ad now = ⟨UpsertOutcome.error, db, 0⟩ := by
  unfold upsertAdWith
  by_cases hval : truthy (lookupData ad "ad_id") = false
  · rw [if_pos hval]
    intro
    rfl
  · rw [if_neg hval]
    cases htr : transformAdData ad with
    | none => intro; rfl
    | some t =>
      dsimp only
      cases hfind : findAd db ((List.lookup "ad_id" t).getD Value.none) with
      | some r =>
        dsimp only
        cases happ : applyFields r t with
        | mk r' needs =>
          dsimp only
          cases needs with
          | false =>
            rw [if_neg (by simp : ¬ (false = true))]
            intro h
            simp at h
          | true =>
            rw [if_pos rfl]
            by_cases hf : fail ((List.lookup "ad_id" t).getD Value.none) = true
            · rw [if_pos hf]
              intro
              rfl
            · rw [if_neg hf]
              intro h
              simp at h
      | none =>
        dsimp only
        by_cases hf : fail ((List.lookup "ad_id" t).getD Value.none) = true
        · rw [if_pos hf]
          intro
          rfl
        · rw [if_neg hf]
          intro h
          simp at h

theorem upsertSeq_first_error (fail : Value → Bool) (db : DB) (now : Nat)
    (a : AdData) (rest : List AdData)
    (h : (upsertAdWith fail db a now).outcome = UpsertOutcome.error) :
    upsertSeq fail now db (a :: rest) = (0, 0, 0, db, true) := by
  unfold upsertSeq
  dsimp only
  rw [h]

/-- Extraction results for the C10 counterexample. -/
def adA10 : AdData := [("ad_id", Value.str "a"), ("headline", Value.str "ha")]

/-- Second record of the C10 counterexample chunk. -/
def adB10 : AdData := [("ad_id", Value.str "b"), ("headline", Value.str "hb")]

/-- Both URLs of the chunk extract perfectly well. -/
def envW10 : String → ExtractResult :=
  fun u => if u = "ua" then ExtractResult.ok adA10 else ExtractResult.ok adB10

/-- The storage layer fails (raises at commit) exactly for ad `a`. -/
def failW10 : Value → Bool :=
  fun v => decide (v = Value.str "a")

/-- C10 counterexample: in the chunk `[ua, ub]`, record `a` (extracted
from `ua`) always fails to reconcile while record `b` extracts fine
and its own storage never fails — yet `b` is never persisted: the
upsert loop of `process_chunk_with_retry` aborts at `a`'s exception
before reaching `b`, and the whole chunk is re-extracted and re-tried
three times (six extraction tasks for two URLs) before giving up with
zero counts.  A failure reconciling one record thus blocks and repeats
the reconciliation of the other records in its batch, refuting the
claimed per-record isolation. -/
theorem c10_batch_blocked_counterexample :
    envW10 "ub" = ExtractResult.ok adB10 ∧
    failW10 (Value.str "b") = false ∧
    (processChunkWithRetry failW10 envW10 ["ua", "ub"] [] 7).db = [] ∧
    findAd (processChunkWithRetry failW10 envW10 ["ua", "ub"] [] 7).db
      (Value.str "b") = Option.none ∧
    (processChunkWithRetry failW10 envW10 ["ua", "ub"] [] 7).attempted =
      ["ua", "ub", "ua", "ub", "ua", "ub"] ∧
    (processChunkWithRetry failW10 envW10 ["ua", "ub"] [] 7).newAds = 0 := by
  exact ⟨by decide, by decide, by decide, by decide, by decide, by decide⟩

/-- C10 (amended): a failure while reconciling one record leaves the
stored state of that record (and of that upsert call) unchanged — the
rollback of crawler.py 599-602 — and the run is not aborted: every
frontier URL of every chunk still gets its extraction task.  But
isolation does not extend to batch-mates: within the failing record's
own chunk the remaining records of that attempt are not reconciled
(the exception aborts the per-ad loop), and the whole chunk is retried
up to 3 times, re-reconciling already-processed records. -/
theorem c10_failure_isolation_and_chunk_retry :
    (∀ (fail : Value → Bool) (db : DB) (ad : AdData) (now : Nat),
      (upsertAdWith fail db ad now).outcome = UpsertOutcome.error →
      upsertAdWith fail db ad now = ⟨UpsertOutcome.error, db, 0⟩) ∧
    (∀ (fail : Value → Bool) (db : DB) (now : Nat) (a : AdData)
       (rest : List AdData),
      (upsertAdWith fail db a now).outcome = UpsertOutcome.error →
      upsertSeq fail now db (a :: rest) = (0, 0, 0, db, true)) := by
  constructor
  · intro fail db ad now h
    exact upsert_error_rollback fail db ad now h
  · intro fail db now a rest h
    exact upsertSeq_first_error fail db now a rest h

theorem c10_failure_isolation_witness :
    (upsertAdWith failW10 [] adA10 7).outcome = UpsertOutcome.error ∧
    upsertAdWith failW10 [] adA10 7 = ⟨UpsertOutcome.error, [], 0⟩ ∧
    upsertSeq failW10 7 [] [adA10, adB10] = (0, 0, 0, [], true) :=
  ⟨by decide,
   c10_failure_isolation_and_chunk_retry.1 failW10 [] adA10 7 (by decide),
   c10_failure_isolation_and_chunk_retry.2 failW10 [] 7 adA10 [adB10]
     (by decide)⟩

end LAS
